import Mathlib

/-!
Verification development for the arion_agents run-time orchestration core.

The Python source is shallowly embedded as executable Lean functions:

* `executeInstruction` embeds `arion_agents/orchestrator.py::execute_instruction`;
* `ExecLog` / `ToolStore` operations embed `arion_agents/logs/execution_log.py`;
* `runStep` / `stepLoop` / `runLoop` embed `arion_agents/engine/loop.py::run_loop`
  together with its inner helpers `_append_step_event`, `_log_tool_execution`,
  `_run_delegation_attempt` and `_handle_task_group`;
* the experiment queue operations embed `arion_agents/run_models.py`
  (`lease_next_queue_item`, `mark_queue_item_completed`) and the stale-item
  reset from `arion_agents/api.py::_reset_stale_queue_items`.

Modelling conventions:

* Python dicts are association lists (`List (String × α)`) with Python's
  insertion-order update semantics (`dSet` replaces in place or appends).
* JSON-ish runtime values are the inductive `Val`.
* Wall-clock / perf-counter reads are drawn, in program order, from an
  arbitrary time source `Clk` (a function `Nat → Nat` plus a read index);
  monotone sources model real time.
* `uuid4().hex` (execution ids, generated group ids) is modelled by an
  injective opaque-id generator driven by a global counter, capturing
  uniqueness of uuids.
* The LLM decide call is an oracle `Nat → AgentDecision` consulted at a
  globally increasing call index: any sequence of successfully parsed
  decisions the real decider could produce is some oracle.
* Python's recursion limit (which turns unbounded delegation nesting into an
  exception caught by `_run_delegation_attempt`) is modelled by a delegation
  depth fuel; exhausting it yields the caught-exception error path.
-/

namespace Arion

/-- Python-dict lookup on an association list (first binding wins). -/
def dGet {α : Type} : List (String × α) → String → Option α
  | [], _ => none
  | (k2, v) :: rest, k => if k2 = k then some v else dGet rest k

/-- Python `key in dict`. -/
def dHas {α : Type} (d : List (String × α)) (k : String) : Bool :=
  (dGet d k).isSome

/-- Python-dict assignment: replace in place if present, else append (keeps
insertion order, as CPython dicts do). -/
def dSet {α : Type} : List (String × α) → String → α → List (String × α)
  | [], k, v => [(k, v)]
  | (k2, v2) :: rest, k, v =>
      if k2 = k then (k2, v) :: rest else (k2, v2) :: dSet rest k v

/-- Python `dict.pop(key, None)`: drop the binding for `k`, if any. -/
def dRemove {α : Type} : List (String × α) → String → List (String × α)
  | [], _ => []
  | (k2, v) :: rest, k => if k2 = k then rest else (k2, v) :: dRemove rest k

/-- Python `dict.update(other)`. -/
def dUpdate {α : Type} (d e : List (String × α)) : List (String × α) :=
  e.foldl (fun acc kv => dSet acc kv.1 kv.2) d

/-- JSON-ish runtime value (Python `Any` as it occurs in the orchestrator). -/
inductive Val where
  | vnull
  | vbool (b : Bool)
  | vint (n : Int)
  | vstr (s : String)
  | varr (items : List Val)
  | vobj (fields : List (String × Val))

/-- Python truthiness for a `Val`. -/
def pyTruthy : Val → Bool
  | .vnull => false
  | .vbool b => b
  | .vint n => !(n == 0)
  | .vstr s => !(s == "")
  | .varr items => !items.isEmpty
  | .vobj fields => !fields.isEmpty

/-- Python `opt or default` for optional strings (empty string is falsy). -/
def pyOrStr (o : Option String) (d : String) : String :=
  match o with
  | some s => if s = "" then d else s
  | none => d

/-- Insert into an ascending list, keeping equal keys in order. -/
def insertAsc (x : String) : List String → List String
  | [] => [x]
  | y :: ys => if x ≤ y then x :: y :: ys else y :: insertAsc x ys

/-- Python `sorted` on a list of strings (stable ascending insertion sort). -/
def pySorted (xs : List String) : List String :=
  xs.foldr insertAsc []

/-- `repr` of a Python list of strings, e.g. `['customer_id']`. -/
def pyStrListRepr (keys : List String) : String :=
  "[" ++ String.intercalate ", " (keys.map (fun s => "\x27" ++ s ++ "\x27")) ++ "]"

/-- A time source: an arbitrary sequence of clock values plus the index of the
next read.  Each `time.time()` / `time.perf_counter()` call in the source is
one `read`. -/
structure Clk where
  ts : Nat → Nat
  idx : Nat

/-- One clock read, advancing the read index. -/
def Clk.read (c : Clk) : Nat × Clk :=
  (c.ts c.idx, { ts := c.ts, idx := c.idx + 1 })

/-- Opaque unique identifier (models `uuid4().hex`); injectivity of the
generator models uuid uniqueness. -/
def mkOpaqueId (n : Nat) : String :=
  String.mk (List.replicate (n + 1) 'x')

/-- `OrchestratorResult.status` literal. -/
inductive RStatus where
  | ok
  | notImplemented
  | retry
  | error
deriving DecidableEq, Repr

/-- The wire string of an `RStatus` (Python stores the literal strings). -/
def statusStr : RStatus → String
  | .ok => "ok"
  | .notImplemented => "not_implemented"
  | .retry => "retry"
  | .error => "error"

/-- Inverse used where the scheduler's string statuses feed an
`OrchestratorResult` (only "ok"/"error" occur there). -/
def rStatusOfStr (s : String) : RStatus :=
  if s = "ok" then .ok
  else if s = "retry" then .retry
  else if s = "not_implemented" then .notImplemented
  else .error

/-- One entry of a tool's `params_schema`
(`{source: 'agent'|'system'|'const'|'secret', required: bool, default?}`). -/
structure ParamSpec where
  source : Option String := none
  required : Bool := false
  default : Option Val := none


/-- `orchestrator.py::ToolRuntimeSpec`. -/
structure ToolRuntimeSpec where
  key : String
  provider_type : String
  params_schema : List (String × ParamSpec) := []
  secret_ref : Option String := none
  metadata : List (String × Val) := []


/-- `orchestrator.py::RunConfig` (fields the engine reads). -/
structure RunConfig where
  current_agent : String
  equipped_tools : List String := []
  tools_map : List (String × ToolRuntimeSpec) := []
  allowed_routes : List String := []
  allow_respond : Bool := true
  allow_task_group : Bool := false
  allow_task_respond : Bool := false
  system_params : List (String × Val) := []
  prompt : Option String := none
  display_name : Option String := none


/-- `orchestrator.py::TaskRetryPolicy` (pydantic default `attempts = 2`). -/
structure TaskRetryPolicy where
  attempts : Nat := 2
deriving DecidableEq, Repr

/-- `orchestrator.py::DelegationDetails`. -/
structure DelegationDetails where
  agent_key : String
  assignment : String
  context_overrides : List (String × Val) := []
  max_steps : Nat := 5


/-- `orchestrator.py::TaskGroupUseTool` / `TaskGroupDelegate` union. -/
inductive TaskGroupTask where
  | useTool (task_id : Option String) (retry_policy : TaskRetryPolicy)
      (tool_name : String) (tool_params : List (String × Val))
  | delegate (task_id : Option String) (retry_policy : TaskRetryPolicy)
      (delegation_details : List DelegationDetails)


/-- The `task_id` of a task. -/
def TaskGroupTask.taskId : TaskGroupTask → Option String
  | .useTool tid _ _ _ => tid
  | .delegate tid _ _ => tid

/-- The `retry_policy` of a task. -/
def TaskGroupTask.retryPolicy : TaskGroupTask → TaskRetryPolicy
  | .useTool _ rp _ _ => rp
  | .delegate _ rp _ => rp

/-- The `task_type` literal of a task. -/
def TaskGroupTask.taskType : TaskGroupTask → String
  | .useTool _ _ _ _ => "use_tool"
  | .delegate _ _ _ => "delegate_agent"

/-- `orchestrator.py::Action` (tagged union of the five actions). -/
inductive Action where
  | useTool (tool_name : String) (tool_params : List (String × Val))
  | routeToAgent (target_agent_name : String) (context : List (String × Val))
  | respond (payload : Val)
  | taskGroup (group_id : Option String) (tasks : List TaskGroupTask)
  | taskRespond (payload : Val)


/-- `orchestrator.py::Instruction`. -/
structure Instruction where
  reasoning : String
  action : Action


/-- `orchestrator.py::OrchestratorResult`. -/
structure OrchestratorResult where
  status : RStatus
  response : Option Val := none
  next_agent : Option String := none
  error : Option String := none


/-- `tools/base.py::ToolRunInput`. -/
structure ToolRunInput where
  params : List (String × Val)
  system : List (String × Val) := []
  metadata : List (String × Val) := []


/-- `tools/base.py::ToolRunOutput` (`result: Any = None`). -/
structure ToolRunOutput where
  ok : Bool := true
  result : Val := .vnull
  error : Option String := none


/-- `agent_decision.py::AgentDecision.action_details` union.  The `action`
literal of the source is represented by the constructor (the engine only
handles decisions whose literal matches their details, see
`decision_to_instruction`). -/
inductive DecisionDetails where
  | useTool (tool_name : String) (tool_params : List (String × Val))
  | routeToAgent (target_agent_name : String) (context : List (String × Val))
  | respond (payload : Val)
  | taskGroup (group_id : Option String) (tasks : List TaskGroupTask)
  | taskRespond (payload : Val)


/-- `agent_decision.py::AgentDecision`. -/
structure AgentDecision where
  action_reasoning : String
  action_details : DecisionDetails


/-- String payloads of RESPOND / TASK_RESPOND are lifted to
`{message: string}` (`decision_to_instruction`). -/
def liftPayload : Val → Val
  | .vstr s => .vobj [("message", .vstr s)]
  | v => v

/-- `agent_decision.py::decision_to_instruction`. -/
def decisionToInstruction (d : AgentDecision) : Instruction :=
  match d.action_details with
  | .useTool name params =>
      { reasoning := d.action_reasoning, action := .useTool name params }
  | .routeToAgent target ctx =>
      { reasoning := d.action_reasoning, action := .routeToAgent target ctx }
  | .respond payload =>
      { reasoning := d.action_reasoning, action := .respond (liftPayload payload) }
  | .taskGroup gid tasks =>
      { reasoning := d.action_reasoning, action := .taskGroup gid tasks }
  | .taskRespond payload =>
      { reasoning := d.action_reasoning, action := .taskRespond (liftPayload payload) }

/-- Process environment: the provider registry (`tools/registry.py::PROVIDERS`
plus `instantiate_tool`; `none` models the unknown-provider exception), an
abstract `jsonschema.validate` (returns an error message on violation; the
constant-`none` function models the library being absent), and the LLM decide
oracle. -/
structure Env where
  providers : String → Option (ToolRunInput → ToolRunOutput)
  jsValidate : Val → List (String × Val) → Option String := fun _ _ => none
  decide : Nat → AgentDecision

/-- Keys the agent supplied whose schema entry has `source == system`
(computed as `sorted(system_names.intersection(params.keys()))`). -/
def forbiddenSystemKeys (schema : List (String × ParamSpec))
    (params : List (String × Val)) : List String :=
  pySorted (((schema.filter (fun kv => kv.2.source = some "system")).map Prod.fst).filter
    (fun k => dHas params k))

/-- Required `source == agent` keys missing from the agent's params
(`missing_agent` in `execute_instruction`). -/
def missingRequiredAgentKeys (schema : List (String × ParamSpec))
    (params : List (String × Val)) : List String :=
  pySorted ((schema.filter (fun kv =>
    kv.2.source.getD "agent" = "agent" && kv.2.required && !(dHas params kv.1))).map Prod.fst)

/-- The `system_params_not_allowed` error text of `execute_instruction`. -/
def sysParamsErrMsg (forbidden : List String) : String :=
  "System params must not be provided by agent: " ++ pyStrListRepr forbidden

/-- Apply a schema default (`if (v or \x7b\x7d).get("default") is not None and
k not in merged`). -/
def applyDefault (merged : List (String × Val)) (k : String) (v : ParamSpec) :
    List (String × Val) :=
  match v.default with
  | some d => if dHas merged k then merged else dSet merged k d
  | none => merged

/-- The system-param injection and default-application loop of
`execute_instruction`; `Except.error` is the early `Missing system param`
return (status `error`). -/
def mergeSystemAndDefaults (systemParams : List (String × Val)) :
    List (String × ParamSpec) → List (String × Val) → Except String (List (String × Val))
  | [], merged => .ok merged
  | (k, v) :: rest, merged =>
      let src := v.source.getD "agent"
      if src = "system" then
        if v.required && !(dHas systemParams k) then
          .error ("Missing system param: " ++ k)
        else
          let merged1 :=
            match dGet systemParams k with
            | some sv => dSet merged k sv
            | none => merged
          mergeSystemAndDefaults systemParams rest (applyDefault merged1 k v)
      else
        mergeSystemAndDefaults systemParams rest (applyDefault merged k v)

/-- `orchestrator.py::execute_instruction`.  Besides the result it returns the
list of provider invocations made (so that "the provider is not invoked" is a
statement about the function) and threads the clock (for `duration_ms`). -/
def executeInstruction (env : Env) (instr : Instruction) (cfg : Option RunConfig)
    (clk : Clk) : OrchestratorResult × List ToolRunInput × Clk :=
  match instr.action with
  | .respond payload =>
      match cfg with
      | some c =>
          if !c.allow_respond then
            ({ status := .retry, error := some "RESPOND not permitted for current agent" },
              [], clk)
          else
            ({ status := .ok, response := some payload }, [], clk)
      | none => ({ status := .ok, response := some payload }, [], clk)
  | .taskRespond payload =>
      match cfg with
      | some c =>
          if !c.allow_task_respond then
            ({ status := .retry,
               error := some "TASK_RESPOND not permitted for current agent" }, [], clk)
          else
            ({ status := .ok, response := some payload }, [], clk)
      | none => ({ status := .ok, response := some payload }, [], clk)
  | .useTool toolName toolParams =>
      match cfg with
      | none =>
          -- with no config the tool spec lookup yields nothing
          ({ status := .retry,
             error := some ("Tool \x27" ++ toolName ++ "\x27 is not configured") }, [], clk)
      | some c =>
          if toolName ∉ c.equipped_tools then
            ({ status := .retry,
               error := some ("Tool \x27" ++ toolName ++ "\x27 not permitted for agent "
                 ++ c.current_agent) }, [], clk)
          else
            match dGet c.tools_map toolName with
            | none =>
                ({ status := .retry,
                   error := some ("Tool \x27" ++ toolName ++ "\x27 is not configured") },
                  [], clk)
            | some tspec =>
                let schema := tspec.params_schema
                let params := toolParams
                let forbidden := forbiddenSystemKeys schema params
                if forbidden ≠ [] then
                  ({ status := .retry, error := some (sysParamsErrMsg forbidden) }, [], clk)
                else
                  let missing := missingRequiredAgentKeys schema params
                  if missing ≠ [] then
                    ({ status := .retry,
                       error := some ("Missing required params: " ++ pyStrListRepr missing) },
                      [], clk)
                  else
                    match mergeSystemAndDefaults c.system_params schema params with
                    | .error msg => ({ status := .error, error := some msg }, [], clk)
                    | .ok merged =>
                        let schemaViolation :=
                          match dGet tspec.metadata "agent_params_json_schema" with
                          | some sv =>
                              if pyTruthy sv then env.jsValidate sv params else none
                          | none => none
                        match schemaViolation with
                        | some vmsg =>
                            ({ status := .retry,
                               error := some ("tool_params do not match schema: " ++ vmsg) },
                              [], clk)
                        | none =>
                            match env.providers tspec.provider_type with
                            | none =>
                                ({ status := .error,
                                   error := some ("tool execution failed: No provider for type \x27"
                                     ++ tspec.provider_type ++ "\x27") }, [], clk)
                            | some toolFn =>
                                let (t0, clk1) := clk.read
                                let inp : ToolRunInput :=
                                  { params := merged, system := c.system_params,
                                    metadata := tspec.metadata }
                                let out := toolFn inp
                                let (t1, clk2) := clk1.read
                                let durMs := t1 - t0
                                if out.ok then
                                  ({ status := .ok,
                                     response := some (.vobj
                                       [("tool", .vstr tspec.key),
                                        ("params", .vobj merged),
                                        ("result", out.result),
                                        ("duration_ms", .vint (Int.ofNat durMs))]) },
                                    [inp], clk2)
                                else
                                  ({ status := .error,
                                     error := some (pyOrStr out.error "tool error") },
                                    [inp], clk2)
  | .routeToAgent target _ctx =>
      match cfg with
      | some c =>
          if target ∉ c.allowed_routes then
            ({ status := .retry,
               error := some ("Route to \x27" ++ target ++ "\x27 not permitted") }, [], clk)
          else
            ({ status := .notImplemented, next_agent := some target }, [], clk)
      | none => ({ status := .notImplemented, next_agent := some target }, [], clk)
  | .taskGroup _ _ =>
      -- `execute_instruction` has no TASK_GROUP branch; it falls through to
      -- the final `not_implemented` return (the loop never sends it here).
      ({ status := .notImplemented }, [], clk)

end Arion

namespace Arion

/-- `_truncate` from `execution_log.py`. -/
def pyTruncate (s : String) (n : Nat) : String :=
  if s.length ≤ n then s else (s.take (n - 1)) ++ "…"

/-- The `final` block of a run (`res.model_dump()` plus the `action_type`
annotations added by the loop). -/
structure FinalBlock where
  status : RStatus
  response : Option Val := none
  next_agent : Option String := none
  error : Option String := none
  action_type : Option String := none

/-- `res.model_dump()` as a final block. -/
def finalOfResult (r : OrchestratorResult) : FinalBlock :=
  { status := r.status, response := r.response, next_agent := r.next_agent,
    error := r.error }

/-- One delegation attempt entry produced by `_run_delegation_attempt`; the
source nests the delegated run's full artifacts under `run`, of which we keep
the final block. -/
structure DelegAttemptEntry where
  attempt : Nat
  status : String
  agent_key : String
  assignment : String
  started_at_ms : Nat
  completed_at_ms : Nat
  duration_ms : Nat
  error : Option String := none
  run_final : Option FinalBlock := none

/-- Task-specific part of a task attempt entry in `_handle_task_group`. -/
inductive AttemptDetail where
  | toolCall (tool : String) (execution_id : String) (duration_ms : Nat)
      (result : Option Val)
  | delegations (items : List DelegAttemptEntry)

/-- One attempt entry of one child task. -/
structure AttemptEntry where
  attempt : Nat
  status : String
  error : Option String := none
  detail : AttemptDetail

/-- One element of the scheduler's `tasks_log`. -/
structure TaskLogEntry where
  task_id : String
  task_type : String
  status : String
  attempts : List AttemptEntry
  result : Option Val := none
  error : Option String := none

/-- Data of an *agent* execution-log entry.  The recorded prompt's
"Tool outputs" section is modelled by the execution ids of the full tool
outputs collected for this step (`full_tool_outputs` in `run_loop`). -/
structure AgentEntryData where
  step : Nat
  epoch : Nat
  agent_key : String
  input_preview : String
  decision : AgentDecision
  prompt_tool_output_ids : List String
  route_context : Option (List (String × Val)) := none

/-- Data of a *tool* execution-log entry. -/
structure ToolEntryData where
  step : Nat
  epoch : Nat
  agent_key : String
  tool_key : String
  execution_id : String
  status : RStatus
  request_payload : List (String × Val)
  response_payload : Option Val
  duration_ms : Nat
  group_id : Option String := none
  parent_task_id : Option String := none
  attempt : Option Nat := none

/-- Data of a *task_group* execution-log entry. -/
structure TaskGroupEntryData where
  step : Nat
  epoch : Nat
  agent_key : String
  group_id : String
  status : String
  reasoning : String
  tasks : List TaskLogEntry
  duration_ms : Nat
  started_at_ms : Nat
  completed_at_ms : Nat

/-- Data of a *system* execution-log entry. -/
structure SystemEntryData where
  message : String
  timestamp_ms : Nat

/-- `execution_log.py` entry union (the `type` tag of the payload dict). -/
inductive LogEntry where
  | agent (a : AgentEntryData)
  | tool (t : ToolEntryData)
  | task_group (tg : TaskGroupEntryData)
  | system (s : SystemEntryData)

/-- `execution_log.py::ExecutionLog` state. -/
structure ExecLog where
  entries : List LogEntry := []
  epoch_by_agent : List (String × Nat) := []
  current_epoch : Nat := 0
  last_agent : Option String := none

/-- `ExecutionLog.start_agent_epoch`. -/
def ExecLog.startAgentEpoch (l : ExecLog) (agentKey : String) : ExecLog :=
  let e :=
    match l.last_agent with
    | none => 0
    | some la => if la = agentKey then l.current_epoch else l.current_epoch + 1
  { l with current_epoch := e,
           epoch_by_agent := dSet l.epoch_by_agent agentKey e,
           last_agent := some agentKey }

/-- `ExecutionLog.current_epoch_for`. -/
def ExecLog.currentEpochFor (l : ExecLog) (agentKey : String) : Nat :=
  (dGet l.epoch_by_agent agentKey).getD l.current_epoch

/-- One record of `ToolExecutionLog.store`. -/
structure ToolRec where
  agent_key : String
  tool_key : String
  params : List (String × Val)
  result : Option Val
  duration_ms : Nat
  ts : Nat
  started_at_ms : Option Nat := none
  completed_at_ms : Option Nat := none
  total_duration_ms : Option Nat := none
  group_id : Option String := none
  parent_task_id : Option String := none
  attempt : Option Nat := none

/-- `ToolExecutionLog.collect_full_for`: every tool execution tagged with
`(agent_key, epoch)` whose id is in the store, in insertion order, with its
full stored payload. -/
def collectFullFor (store : List (String × ToolRec)) :
    List LogEntry → String → Nat → List (String × ToolRec)
  | [], _, _ => []
  | .tool t :: rest, agentKey, epoch =>
      if t.agent_key = agentKey ∧ t.epoch = epoch then
        match dGet store t.execution_id with
        | some tr => (t.execution_id, tr) :: collectFullFor store rest agentKey epoch
        | none => collectFullFor store rest agentKey epoch
      else
        collectFullFor store rest agentKey epoch
  | _ :: rest, agentKey, epoch => collectFullFor store rest agentKey epoch

/-- One step-event envelope (`_append_step_event`; `kind` is always
`log_entry`). -/
structure StepEvent where
  seq : Nat
  t : Nat
  entryType : String
  payload : LogEntry

/-- The output dict of `run_loop` (the fields the claims are about). -/
structure RunOut where
  final : FinalBlock
  execution_log : List LogEntry
  tool_log : List (String × ToolRec)
  step_events : List StepEvent

/-- Per-run mutable state of `run_loop`. -/
structure RunState where
  exec_log : ExecLog := {}
  tool_store : List (String × ToolRec) := []
  step_events : List StepEvent := []
  next_seq : Nat := 0
  pending_route_context : List (String × List (String × Val)) := []

/-- Cross-run global state: the clock, the decide-call index and the opaque-id
counter (`uuid4` mints). -/
structure Glob where
  clk : Clk
  decideIdx : Nat := 0
  execCtr : Nat := 0

/-- `_append_step_event`. -/
def RunState.appendEvent (st : RunState) (ty : String) (payload : LogEntry)
    (tms : Nat) : RunState :=
  { st with
    step_events := st.step_events ++
      [{ seq := st.next_seq, t := tms, entryType := ty, payload := payload }],
    next_seq := st.next_seq + 1 }

/-- Append an agent log entry plus its step event (`append_agent_step`
followed by `_append_step_event("agent", entry, step_started_at_ms)`). -/
def appendAgentEntry (st : RunState) (a : AgentEntryData) (tms : Nat) : RunState :=
  let st1 := { st with
    exec_log := { st.exec_log with entries := st.exec_log.entries ++ [LogEntry.agent a] } }
  st1.appendEvent "agent" (.agent a) tms

/-- `r.get(k)` on an optional response dict. -/
def respGet (r : Option Val) (k : String) : Option Val :=
  match r with
  | some (.vobj kvs) => dGet kvs k
  | _ => none

/-- `r.get(k)` where a stored `None` and a missing key coincide (Python
`is None` tests). -/
def pyGetOpt (r : Option Val) (k : String) : Option Val :=
  match respGet r k with
  | some .vnull => none
  | v => v

/-- Python `value or fallback` where `value` is a string-valued lookup. -/
def pyOrValStr (v : Option Val) (fallback : String) : String :=
  match v with
  | some (.vstr s) => if s = "" then fallback else s
  | _ => fallback

/-- `int(r.get("duration_ms") or 0)`. -/
def valToNatD (v : Option Val) : Nat :=
  match v with
  | some (.vint n) => n.toNat
  | _ => 0

/-- Return value of `_log_tool_execution`. -/
structure ToolLogInfo where
  execution_id : String
  tool_key : String
  duration_ms : Nat
  total_duration_ms : Nat
  result : Option Val
  params : List (String × Val)
  status : RStatus
  completed_at_ms : Nat

/-- `engine/loop.py::_log_tool_execution`: put the full payload in the tool
store under a fresh opaque id, append a *tool* log entry and a step event. -/
def logToolExecution (agentKey : String) (stepIdx : Nat) (toolName : String)
    (toolParams : List (String × Val)) (result : OrchestratorResult)
    (actionStartedAtMs actionDurationMs : Nat)
    (groupId parentTaskId : Option String) (attemptIndex : Option Nat)
    (st : RunState) (g : Glob) : ToolLogInfo × RunState × Glob :=
  let r := result.response
  let toolKey := pyOrValStr (pyGetOpt r "tool") toolName
  let paramsLog :=
    match pyGetOpt r "params" with
    | some (.vobj kvs) =>
        if kvs.isEmpty then (if result.status ≠ .ok then toolParams else []) else kvs
    | _ => if result.status ≠ .ok then toolParams else []
  let fullResult0 := pyGetOpt r "result"
  let fullResult :=
    if decide (result.status ≠ .ok) && fullResult0.isNone then
      some (.vobj [("error", match result.error with
                             | some s => .vstr s
                             | none => .vnull)])
    else fullResult0
  let durationMs := valToNatD (pyGetOpt r "duration_ms")
  let toolStarted := actionStartedAtMs
  let totalForCompletion := max durationMs (max actionDurationMs 0)
  let toolCompleted :=
    if totalForCompletion ≠ 0 then toolStarted + totalForCompletion else toolStarted
  let execId := mkOpaqueId g.execCtr
  let toolRec : ToolRec :=
    { agent_key := agentKey, tool_key := toolKey, params := paramsLog,
      result := fullResult, duration_ms := durationMs, ts := toolCompleted,
      started_at_ms := some toolStarted, completed_at_ms := some toolCompleted,
      total_duration_ms := some actionDurationMs, group_id := groupId,
      parent_task_id := parentTaskId, attempt := attemptIndex }
  let entry : ToolEntryData :=
    { step := stepIdx, epoch := st.exec_log.current_epoch, agent_key := agentKey,
      tool_key := toolKey, execution_id := execId, status := result.status,
      request_payload := paramsLog, response_payload := fullResult,
      duration_ms := durationMs, group_id := groupId,
      parent_task_id := parentTaskId, attempt := attemptIndex }
  let st1 := { st with
    exec_log := { st.exec_log with entries := st.exec_log.entries ++ [LogEntry.tool entry] },
    tool_store := dSet st.tool_store execId toolRec }
  let st2 := st1.appendEvent "tool" (.tool entry) toolStarted
  ({ execution_id := execId, tool_key := toolKey, duration_ms := durationMs,
     total_duration_ms := actionDurationMs, result := fullResult,
     params := paramsLog, status := result.status,
     completed_at_ms := toolCompleted }, st2, { g with execCtr := g.execCtr + 1 })

/-- The type of the recursive nested-run call available to the delegation
handler.  Arguments: config provider, delegated agent, assignment message,
max steps, global state.  `Except.error` is a raised exception (in practice
Python's recursion limit on unbounded delegation nesting). -/
def SubRunner : Type :=
  (String → RunConfig) → String → String → Nat → Glob → Except String (RunOut × Glob)

/-- The `_delegated_get_cfg` closure of `_run_delegation_attempt`: override
`allow_respond`/`allow_task_respond` and inject `system_params.delegation`. -/
def delegatedGetCfg (getCfg : String → RunConfig) (detail : DelegationDetails)
    (delegatingAgentKey groupId parentTaskId : String) : String → RunConfig :=
  fun agentKey =>
    let baseCfg := getCfg agentKey
    let delegationCtx :=
      dSet (dSet (dSet (dSet detail.context_overrides
        "assignment" (.vstr detail.assignment))
        "parent_agent" (.vstr delegatingAgentKey))
        "group_id" (.vstr groupId))
        "task_id" (.vstr parentTaskId)
    { baseCfg with
      allow_respond := false,
      allow_task_respond := true,
      system_params := dSet baseCfg.system_params "delegation" (.vobj delegationCtx) }

/-- Return value of `_run_delegation_attempt`. -/
structure DelegOutcome where
  status : String
  attempt_entry : DelegAttemptEntry
  result_payload : Option Val
  error : Option String

/-- The `action_type` check of `_run_delegation_attempt`:
`final_payload.get("action_type") or (final_payload.get("response") or
\x7b\x7d).get("action_type")`. -/
def delegFinalActionType (finalPayload : FinalBlock) : Option String :=
  match finalPayload.action_type with
  | some s => some s
  | none =>
      match finalPayload.response with
      | some (.vobj kvs) =>
          match dGet kvs "action_type" with
          | some (.vstr s) => some s
          | _ => none
      | _ => none

/-- `engine/loop.py::_run_delegation_attempt`. -/
def runDelegationAttempt (sub : SubRunner) (getCfg : String → RunConfig)
    (detail : DelegationDetails) (delegatingAgentKey groupId parentTaskId : String)
    (attemptIndex : Nat) (g : Glob) : DelegOutcome × Glob :=
  let maxSteps := max detail.max_steps 1
  let (attemptStarted, c1) := g.clk.read
  let g1 := { g with clk := c1 }
  let dgc := delegatedGetCfg getCfg detail delegatingAgentKey groupId parentTaskId
  match sub dgc detail.agent_key detail.assignment maxSteps g1 with
  | .ok (subOut, g2) =>
      let finalPayload := subOut.final
      let finalActionType := delegFinalActionType finalPayload
      let failed := decide (finalPayload.status ≠ .ok)
        || decide (finalActionType ≠ some "TASK_RESPOND")
      let status := if failed then "error" else "ok"
      let errorMessage : Option String :=
        if failed then
          some (pyOrStr finalPayload.error "Delegated agent did not complete successfully")
        else none
      let (attemptCompleted, c2) := g2.clk.read
      let g3 := { g2 with clk := c2 }
      let durationMs := attemptCompleted - attemptStarted
      let attemptEntry : DelegAttemptEntry :=
        { attempt := attemptIndex, status := status, agent_key := detail.agent_key,
          assignment := detail.assignment, started_at_ms := attemptStarted,
          completed_at_ms := attemptCompleted, duration_ms := durationMs,
          error := if status ≠ "ok" then errorMessage else none,
          run_final := some subOut.final }
      let resultPayload : Option Val :=
        if status = "ok" then
          match finalPayload.response with
          | some v => if pyTruthy v then some v else none
          | none => none
        else none
      ({ status := status, attempt_entry := attemptEntry,
         result_payload := resultPayload, error := errorMessage }, g3)
  | .error excMsg =>
      let (attemptCompleted, c2) := g1.clk.read
      let g3 := { g1 with clk := c2 }
      let durationMs := attemptCompleted - attemptStarted
      let attemptEntry : DelegAttemptEntry :=
        { attempt := attemptIndex, status := "error", agent_key := detail.agent_key,
          assignment := detail.assignment, started_at_ms := attemptStarted,
          completed_at_ms := attemptCompleted, duration_ms := durationMs,
          error := some excMsg, run_final := none }
      ({ status := "error", attempt_entry := attemptEntry,
         result_payload := none, error := some excMsg }, g3)

/-- The `for detail in task.delegation_details` loop of `_handle_task_group`:
run delegation details in order, stopping at the first failure. -/
def runDelegDetails (sub : SubRunner) (getCfg : String → RunConfig)
    (delegatingAgentKey groupId parentTaskId : String) (attemptIndex : Nat) :
    List DelegationDetails → List DelegAttemptEntry → List Val → Glob →
    List DelegAttemptEntry × List Val × Option String × Glob
  | [], attempts, results, g => (attempts, results, none, g)
  | detail :: rest, attempts, results, g =>
      let (oc, g1) := runDelegationAttempt sub getCfg detail delegatingAgentKey
        groupId parentTaskId attemptIndex g
      let attempts1 := attempts ++ [oc.attempt_entry]
      if oc.status ≠ "ok" then
        (attempts1, results, some (pyOrStr oc.error "delegated agent failed"), g1)
      else
        runDelegDetails sub getCfg delegatingAgentKey groupId parentTaskId attemptIndex
          rest attempts1 (results ++ [(oc.result_payload).getD .vnull]) g1

/-- One iteration of the `for attempt_idx in range(1, attempts_allowed + 1)`
loop of `_handle_task_group` for one child task: returns the attempt entry,
whether the attempt succeeded, the new `last_error`, and the result payload
(used only on success). -/
def runOneAttempt (env : Env) (sub : SubRunner) (getCfg : String → RunConfig)
    (cfg : RunConfig) (agentKey : String) (stepIdx : Nat) (groupId : String)
    (task : TaskGroupTask) (taskIdentifier : String) (attemptIdx : Nat)
    (st : RunState) (g : Glob) :
    AttemptEntry × Bool × Option String × Option Val × RunState × Glob :=
  let (attemptStarted, c1) := g.clk.read
  let (attemptPerf, c2) := c1.read
  let g1 := { g with clk := c2 }
  match task with
  | .useTool _ _ toolName toolParams =>
      let childInstr : Instruction :=
        { reasoning := "TASK_GROUP child " ++ taskIdentifier,
          action := .useTool toolName toolParams }
      let (childResult, _calls, c3) := executeInstruction env childInstr (some cfg) g1.clk
      let (perfAfter, c4) := c3.read
      let g2 := { g1 with clk := c4 }
      let actionDurationMs := perfAfter - attemptPerf
      let (info, st1, g3) := logToolExecution agentKey (stepIdx + 1) toolName
        toolParams childResult attemptStarted actionDurationMs
        (some groupId) (some taskIdentifier) (some attemptIdx) st g2
      if childResult.status = .ok then
        let entry : AttemptEntry :=
          { attempt := attemptIdx, status := statusStr childResult.status,
            error := none,
            detail := .toolCall toolName info.execution_id actionDurationMs info.result }
        (entry, true, none, info.result, st1, g3)
      else
        let lastError1 := some (pyOrStr childResult.error "tool execution failed")
        let entry : AttemptEntry :=
          { attempt := attemptIdx, status := statusStr childResult.status,
            error := lastError1,
            detail := .toolCall toolName info.execution_id actionDurationMs none }
        (entry, false, lastError1, none, st1, g3)
  | .delegate _ _ details =>
      let (delegations, results, delegErr, g2) := runDelegDetails sub getCfg agentKey
        groupId taskIdentifier attemptIdx details [] [] g1
      match delegErr with
      | some err =>
          let entry : AttemptEntry :=
            { attempt := attemptIdx, status := "error", error := some err,
              detail := .delegations delegations }
          (entry, false, some err, none, st, g2)
      | none =>
          let entry : AttemptEntry :=
            { attempt := attemptIdx, status := "ok", error := none,
              detail := .delegations delegations }
          (entry, true, none, some (.varr results), st, g2)

/-- The `for attempt_idx in range(1, attempts_allowed + 1)` loop of
`_handle_task_group` for one child task; returns the attempt entries, whether
the task succeeded, the last error, and the result payload.  Success stops
the retries. -/
def runTaskAttempts (env : Env) (sub : SubRunner) (getCfg : String → RunConfig)
    (cfg : RunConfig) (agentKey : String) (stepIdx : Nat) (groupId : String)
    (task : TaskGroupTask) (taskIdentifier : String) :
    Nat → Nat → List AttemptEntry → Option String → RunState → Glob →
    List AttemptEntry × Bool × Option String × Option Val × RunState × Glob
  | 0, _, acc, lastError, st, g => (acc, false, lastError, none, st, g)
  | remaining + 1, attemptIdx, acc, _lastError, st, g =>
      let (entry, success, newErr, res, st1, g1) :=
        runOneAttempt env sub getCfg cfg agentKey stepIdx groupId task taskIdentifier
          attemptIdx st g
      if success then (acc ++ [entry], true, none, res, st1, g1)
      else
        runTaskAttempts env sub getCfg cfg agentKey stepIdx groupId task taskIdentifier
          remaining (attemptIdx + 1) (acc ++ [entry]) newErr st1 g1

/-- Return value of `_handle_task_group`. -/
structure TGOutcome where
  status : String
  error : Option String := none
  group_id : String
  tasks_log : List TaskLogEntry
  response : Option Val

/-- One element of the scheduler's `response_tasks`. -/
def taskRespVal (taskId : String) (success : Bool) (result : Option Val)
    (err : Option String) : Val :=
  .vobj [("task_id", .vstr taskId),
         ("status", .vstr (if success then "ok" else "error")),
         ("result", result.getD .vnull),
         ("error", if success then .vnull
                   else match err with
                        | some s => .vstr s
                        | none => .vnull)]

/-- The `for idx, task in enumerate(action.tasks)` loop of
`_handle_task_group`: run child tasks sequentially in declaration order,
aborting the group when a task exhausts its attempts. -/
def runTasks (env : Env) (sub : SubRunner) (getCfg : String → RunConfig)
    (cfg : RunConfig) (agentKey : String) (stepIdx : Nat) (groupId : String) :
    List TaskGroupTask → Nat → List TaskLogEntry → List Val → RunState → Glob →
    TGOutcome × RunState × Glob
  | [], _, tasksLog, respTasks, st, g =>
      ({ status := "ok", error := none, group_id := groupId, tasks_log := tasksLog,
         response := some (.vobj [("group_id", .vstr groupId),
                                  ("tasks", .varr respTasks)]) }, st, g)
  | task :: rest, idx, tasksLog, respTasks, st, g =>
      let taskIdentifier := pyOrStr task.taskId (toString idx)
      let attemptsAllowed := max task.retryPolicy.attempts 1
      let (attempts, success, lastError, resultPayload, st1, g1) :=
        runTaskAttempts env sub getCfg cfg agentKey stepIdx groupId task taskIdentifier
          attemptsAllowed 1 [] none st g
      let taskEntry : TaskLogEntry :=
        { task_id := taskIdentifier, task_type := task.taskType,
          status := if success then "ok" else "error", attempts := attempts,
          result := resultPayload,
          error := if success then none else lastError }
      let tasksLog1 := tasksLog ++ [taskEntry]
      let respTasks1 := respTasks ++ [taskRespVal taskIdentifier success resultPayload lastError]
      if success then
        runTasks env sub getCfg cfg agentKey stepIdx groupId rest (idx + 1)
          tasksLog1 respTasks1 st1 g1
      else
        ({ status := "error", error := lastError, group_id := groupId,
           tasks_log := tasksLog1,
           response := some (.vobj [("group_id", .vstr groupId),
                                    ("tasks", .varr respTasks1)]) }, st1, g1)

/-- `engine/loop.py::_handle_task_group`. -/
def handleTaskGroup (env : Env) (sub : SubRunner) (getCfg : String → RunConfig)
    (gid : Option String) (tasks : List TaskGroupTask) (cfg : RunConfig)
    (agentKey : String) (stepIdx : Nat) (st : RunState) (g : Glob) :
    TGOutcome × RunState × Glob :=
  let (groupId, g1) :=
    match gid with
    | some s =>
        if s = "" then (mkOpaqueId g.execCtr, { g with execCtr := g.execCtr + 1 })
        else (s, g)
    | none => (mkOpaqueId g.execCtr, { g with execCtr := g.execCtr + 1 })
  if !cfg.allow_task_group then
    ({ status := "error",
       error := some ("TASK_GROUP not permitted for agent " ++ agentKey),
       group_id := groupId, tasks_log := [], response := none }, st, g1)
  else
    runTasks env sub getCfg cfg agentKey stepIdx groupId tasks 0 [] [] st g1

/-- Outcome of one iteration of the step loop: terminate with a final block,
or continue with the (possibly re-routed) current agent. -/
inductive StepRes where
  | finish (final : FinalBlock)
  | next (agent : String)

/-- The guardrail final block of `run_loop`. -/
def guardrailFinal : FinalBlock :=
  { status := .error, error := some "max_steps_exceeded" }

/-- Build the returned run artifact from the final block and the state. -/
def mkRunOut (final : FinalBlock) (st : RunState) : RunOut :=
  { final := final, execution_log := st.exec_log.entries,
    tool_log := st.tool_store, step_events := st.step_events }

/-- The dispatch tail of one loop iteration, from the parsed decision on:
execute the chosen action, append the agent entry and the per-action log
entries, and classify the outcome.  `st1` is the per-run state after the
epoch start and handoff pop; `g2` the global state after the pre-dispatch
clock reads.  The source's final "unknown action" bail-out branch is
unreachable: the `Action` union is closed and every variant is dispatched
below. -/
def runStepCore (env : Env) (sub : SubRunner) (getCfg : String → RunConfig)
    (userMessage : String) (step : Nat) (currentAgent : String) (cfg : RunConfig)
    (decision : AgentDecision) (fullOutputs : List (String × ToolRec))
    (stepStarted actionStarted actionPerf : Nat) (st1 : RunState) (g2 : Glob) :
    StepRes × RunState × Glob :=
  let instr := decisionToInstruction decision
  let (res, tgOutcome, st2, g3) :=
    match instr.action with
    | .taskGroup gid tasks =>
        let (oc, stx, gx) := handleTaskGroup env sub getCfg gid tasks cfg currentAgent step st1 g2
        (({ status := rStatusOfStr oc.status, response := oc.response,
            error := oc.error } : OrchestratorResult), some oc, stx, gx)
    | _ =>
        let (r, _calls, clkx) := executeInstruction env instr (some cfg) g2.clk
        (r, none, st1, { g2 with clk := clkx })
  let (perfAfter, c8) := g3.clk.read
  let g4 := { g3 with clk := c8 }
  let actionDurationMs := perfAfter - actionPerf
  let mkAgentEntry : Option (List (String × Val)) → AgentEntryData := fun routeCtx =>
    { step := step, epoch := st2.exec_log.current_epoch, agent_key := currentAgent,
      input_preview := pyTruncate userMessage 80, decision := decision,
      prompt_tool_output_ids := fullOutputs.map Prod.fst,
      route_context := routeCtx }
  match instr.action with
  | .respond _ =>
      let st3 := appendAgentEntry st2 (mkAgentEntry none) stepStarted
      (.finish (finalOfResult res), st3, g4)
  | .taskRespond _ =>
      let st3 := appendAgentEntry st2 (mkAgentEntry none) stepStarted
      (.finish { finalOfResult res with action_type := some "TASK_RESPOND" }, st3, g4)
  | .useTool toolName toolParams =>
      let st3 := appendAgentEntry st2 (mkAgentEntry none) stepStarted
      let (_info, st4, g5) := logToolExecution currentAgent (step + 1) toolName toolParams
        res actionStarted actionDurationMs none none none st3 g4
      (.next currentAgent, st4, g5)
  | .routeToAgent target ctx =>
      let st3 := appendAgentEntry st2
        (mkAgentEntry (if ctx.isEmpty then none else some ctx)) stepStarted
      let st4 := { st3 with
        pending_route_context := dSet st3.pending_route_context target ctx }
      (.next target, st4, g4)
  | .taskGroup _ _ =>
      match tgOutcome with
      | some oc =>
          let st3 := appendAgentEntry st2 (mkAgentEntry none) stepStarted
          let tgEntry : TaskGroupEntryData :=
            { step := step + 1, epoch := st3.exec_log.current_epoch,
              agent_key := currentAgent, group_id := oc.group_id, status := oc.status,
              reasoning := instr.reasoning, tasks := oc.tasks_log,
              duration_ms := actionDurationMs, started_at_ms := actionStarted,
              completed_at_ms := actionStarted + actionDurationMs }
          let st4 := { st3 with
            exec_log := { st3.exec_log with
              entries := st3.exec_log.entries ++ [LogEntry.task_group tgEntry] } }
          let st5 := st4.appendEvent "task_group" (.task_group tgEntry) actionStarted
          if res.status ≠ .ok then
            (.finish { finalOfResult res with action_type := some "TASK_GROUP" }, st5, g4)
          else
            (.next currentAgent, st5, g4)
      | none =>
          (.finish (finalOfResult res), st2, g4)

/-- One iteration of the `while step < max_steps` loop of `run_loop`: start
the agent epoch, pop the pending handoff context, collect the full tool
outputs for the prompt, consult the decide oracle, then dispatch. -/
def runStep (env : Env) (sub : SubRunner) (getCfg : String → RunConfig)
    (userMessage : String) (step : Nat) (currentAgent : String)
    (st : RunState) (g : Glob) : StepRes × RunState × Glob :=
  let cfg := getCfg currentAgent
  let elog1 := st.exec_log.startAgentEpoch currentAgent
  let handoffContext := dGet st.pending_route_context currentAgent
  let pending1 := dRemove st.pending_route_context currentAgent
  let epoch := elog1.currentEpochFor currentAgent
  let fullOutputs := collectFullFor st.tool_store elog1.entries currentAgent epoch
  let st1 : RunState := { st with exec_log := elog1, pending_route_context := pending1 }
  let (stepStarted, c1) := g.clk.read
  let (_stepPerf, c2) := c1.read
  let (_llmStarted, c3) := c2.read
  let (_llmPerf, c4) := c3.read
  let decision := env.decide g.decideIdx
  let (_llmPerfEnd, c5) := c4.read
  let g1 := { g with clk := c5, decideIdx := g.decideIdx + 1 }
  let (actionStarted, c6) := g1.clk.read
  let (actionPerf, c7) := c6.read
  let g2 := { g1 with clk := c7 }
  let _handoff := handoffContext
  runStepCore env sub getCfg userMessage step currentAgent cfg decision fullOutputs
    stepStarted actionStarted actionPerf st1 g2

/-- The `while step < max_steps` loop; fuel counts the remaining steps, and
running out of fuel is the `max_steps_exceeded` guardrail exit. -/
def stepLoop (env : Env) (sub : SubRunner) (getCfg : String → RunConfig)
    (userMessage : String) :
    Nat → Nat → String → RunState → Glob → RunOut × Glob
  | 0, _, _, st, g => (mkRunOut guardrailFinal st, g)
  | fuel + 1, step, cur, st, g =>
      match runStep env sub getCfg userMessage step cur st g with
      | (.finish f, st1, g1) => (mkRunOut f st1, g1)
      | (.next nxt, st1, g1) =>
          stepLoop env sub getCfg userMessage fuel (step + 1) nxt st1 g1

/-- `run_loop` body: fresh per-run state, then the step loop.  The two leading
clock reads are `run_perf_start` and `run_started_at_ms`. -/
def runLoopBody (env : Env) (sub : SubRunner) (getCfg : String → RunConfig)
    (defaultAgentKey userMessage : String) (maxSteps : Nat) (g : Glob) :
    RunOut × Glob :=
  let (_runPerfStart, c1) := g.clk.read
  let (_runStartedAt, c2) := c1.read
  stepLoop env sub getCfg userMessage maxSteps 0 defaultAgentKey {} { g with clk := c2 }

/-- Tie the delegation knot: at depth 0 a nested call raises (Python's
recursion limit), otherwise it runs `run_loop` recursively. -/
def subRunnerOf (env : Env) : Nat → SubRunner
  | 0 => fun _ _ _ _ _ => Except.error "maximum recursion depth exceeded"
  | d + 1 => fun gc agent msg ms g =>
      Except.ok (runLoopBody env (subRunnerOf env d) gc agent msg ms g)

/-- `engine/loop.py::run_loop` with delegation depth fuel `dfuel`. -/
def runLoop (env : Env) (dfuel : Nat) (getCfg : String → RunConfig)
    (defaultAgentKey userMessage : String) (maxSteps : Nat) (g : Glob) :
    RunOut × Glob :=
  runLoopBody env (subRunnerOf env dfuel) getCfg defaultAgentKey userMessage maxSteps g

end Arion

namespace Arion

/-- `run_models.py::ExperimentQueueStatus`. -/
inductive QStatus where
  | pending
  | inProgress
  | completed
  | failed
deriving DecidableEq, Repr

/-- `run_models.py::ExperimentQueueRecord` (one queue row). -/
structure QRow where
  id : Nat
  experiment_id : String := ""
  item_index : Nat := 0
  iteration : Nat := 0
  status : QStatus := .pending
  enqueued_at : Nat := 0
  started_at : Option Nat := none
  completed_at : Option Nat := none
  error : Option String := none
  result : Option Val := none

/-- Index of the row `lease_next_queue_item` selects (`select ... where
status = pending order by enqueued_at limit 1`): the first row carrying the
minimal `enqueued_at` among the `pending` rows. -/
def leaseIdx (rows : List QRow) : Option Nat :=
  match ((rows.filter (fun r => decide (r.status = .pending))).map QRow.enqueued_at).min? with
  | none => none
  | some m =>
      rows.findIdx? (fun r => decide (r.status = .pending) && decide (r.enqueued_at = m))

/-- `run_models.py::lease_next_queue_item`: one transaction selecting the
oldest pending row, flipping it to `in_progress` with `started_at = now`,
returning the refreshed row. -/
def leaseNextQueueItem (now : Nat) (rows : List QRow) : Option QRow × List QRow :=
  match leaseIdx rows with
  | none => (none, rows)
  | some i =>
      match rows[i]? with
      | some r =>
          let r2 := { r with status := .inProgress, started_at := some now }
          (some r2, rows.set i r2)
      | none => (none, rows)

/-- `run_models.py::mark_queue_item_completed` (`session.get` by primary key
is the first row with that id). -/
def markQueueItemCompleted (now : Nat) (rid : Nat) (succeeded : Bool)
    (error : Option String) (result : Option Val) (rows : List QRow) : List QRow :=
  match rows.findIdx? (fun r => decide (r.id = rid)) with
  | none => rows
  | some i =>
      match rows[i]? with
      | some r =>
          let r2 := { r with
            completed_at := some now,
            status := if succeeded then QStatus.completed else QStatus.failed,
            error := if succeeded then none else error,
            result := result }
          rows.set i r2
      | none => rows

/-- The stale condition of `api.py::_reset_stale_queue_items`. -/
def staleCond (cutoff : Nat) (r : QRow) : Bool :=
  decide (r.status = .inProgress) &&
    (match r.started_at with
     | none => true
     | some t => decide (t < cutoff))

/-- `api.py::_reset_stale_queue_items`: reset stale `in_progress` rows to
`pending`, clearing their progress fields. -/
def resetStaleQueueItems (cutoff : Nat) (rows : List QRow) : List QRow :=
  rows.map (fun r =>
    if staleCond cutoff r then
      { r with status := .pending, started_at := none, completed_at := none,
               error := none, result := none }
    else r)

/-- `run_models.py::enqueue_queue_items` (adds all records). -/
def enqueueQueueItems (rows records : List QRow) : List QRow :=
  rows ++ records

/-- The operations that touch queue rows. -/
inductive QOp where
  | enqueue (records : List QRow)
  | lease (now : Nat)
  | markCompleted (rid : Nat) (now : Nat) (succeeded : Bool)
      (error : Option String) (result : Option Val)
  | resetStale (cutoff : Nat)

/-- Apply one queue operation to the rows. -/
def applyQOp (rows : List QRow) : QOp → List QRow
  | .enqueue records => enqueueQueueItems rows records
  | .lease now => (leaseNextQueueItem now rows).2
  | .markCompleted rid now succeeded error result =>
      markQueueItemCompleted now rid succeeded error result rows
  | .resetStale cutoff => resetStaleQueueItems cutoff rows

/-- Apply a sequence of queue operations. -/
def applyQOps (rows : List QRow) (ops : List QOp) : List QRow :=
  ops.foldl applyQOp rows

end Arion

namespace Arion

/-- A queue row is terminally settled. -/
def QSettled (r : QRow) : Prop :=
  r.status = .completed ∨ r.status = .failed

lemma leaseIdx_none_iff (rows : List QRow) :
    leaseIdx rows = none ↔ ∀ r ∈ rows, r.status ≠ .pending := by
  unfold leaseIdx
  rcases hmin : ((rows.filter (fun r => decide (r.status = .pending))).map
      QRow.enqueued_at).min? with _ | m
  · rw [hmin]
    rw [List.min?_eq_none_iff, List.map_eq_nil_iff, List.filter_eq_nil_iff] at hmin
    constructor
    · intro _ r hr hp
      exact hmin r hr (by simp [hp])
    · intro _
      rfl
  · rw [hmin]
    obtain ⟨hm, _⟩ := (List.min?_eq_some_iff').mp hmin
    obtain ⟨r, hrf, hre⟩ := List.mem_map.mp hm
    obtain ⟨hrr, hrp⟩ := List.mem_filter.mp hrf
    constructor
    · intro hnone
      rw [List.findIdx?_eq_none_iff] at hnone
      have := hnone r hrr
      simp [of_decide_eq_true hrp, hre] at this
    · intro hall
      exact absurd (of_decide_eq_true hrp) (hall r hrr)

lemma leaseIdx_some_spec (rows : List QRow) (i : Nat) (h : leaseIdx rows = some i) :
    ∃ r, rows[i]? = some r ∧ r.status = .pending ∧
      ∀ r2 ∈ rows, r2.status = .pending → r.enqueued_at ≤ r2.enqueued_at := by
  unfold leaseIdx at h
  rcases hmin : ((rows.filter (fun r => decide (r.status = .pending))).map
      QRow.enqueued_at).min? with _ | m
  · rw [hmin] at h; cases h
  · rw [hmin] at h
    rw [List.findIdx?_eq_some_iff_findIdx_eq] at h
    obtain ⟨hlt, hidx⟩ := h
    have hp : rows[i].status = QStatus.pending ∧ rows[i].enqueued_at = m := by
      have hq : (fun r => decide (r.status = QStatus.pending) &&
          decide (r.enqueued_at = m)) rows[i] = true := by
        subst hidx
        simpa using List.findIdx_getElem (w := hlt)
      simpa using hq
    refine ⟨rows[i], List.getElem?_eq_getElem hlt, hp.1, ?_⟩
    obtain ⟨_, hmin2⟩ := (List.min?_eq_some_iff').mp hmin
    intro r2 hr2 hp2
    have hr2f : r2 ∈ rows.filter (fun r => decide (r.status = .pending)) :=
      List.mem_filter.mpr ⟨hr2, by simp [hp2]⟩
    have hle := hmin2 r2.enqueued_at (List.mem_map.mpr ⟨r2, hr2f, rfl⟩)
    rw [hp.2]
    exact hle

lemma leaseIdx_lt_length (rows : List QRow) (i : Nat) (h : leaseIdx rows = some i) :
    i < rows.length := by
  obtain ⟨r, hr, _⟩ := leaseIdx_some_spec rows i h
  obtain ⟨hlt, _⟩ := List.getElem?_eq_some.mp hr
  exact hlt

lemma leaseIdx_skips_settled (rows : List QRow) (i : Nat) (r : QRow)
    (hget : rows[i]? = some r) (hcf : QSettled r) :
    ∀ j, leaseIdx rows = some j → j ≠ i := by
  intro j hj he
  subst he
  obtain ⟨r2, hr2, hp2, _⟩ := leaseIdx_some_spec rows j hj
  rw [hget] at hr2
  cases hr2
  rcases hcf with h | h <;> rw [hp2] at h <;> cases h

lemma applyQOp_settled (rows : List QRow) (op : QOp) (i : Nat) (r : QRow)
    (hget : rows[i]? = some r) (hcf : QSettled r) :
    ∃ r2, (applyQOp rows op)[i]? = some r2 ∧ QSettled r2 := by
  obtain ⟨hlt, _⟩ := List.getElem?_eq_some.mp hget
  cases op with
  | enqueue recs =>
      refine ⟨r, ?_, hcf⟩
      simpa [applyQOp, enqueueQueueItems, List.getElem?_append, hlt] using hget
  | lease now =>
      simp only [applyQOp, leaseNextQueueItem]
      split
      · exact ⟨r, hget, hcf⟩
      · rename_i j hidx
        split
        · rename_i rj hj
          have hne : j ≠ i := leaseIdx_skips_settled rows i r hget hcf j hidx
          refine ⟨r, ?_, hcf⟩
          rw [List.getElem?_set_ne hne]
          exact hget
        · exact ⟨r, hget, hcf⟩
  | markCompleted rid now succeeded err res =>
      simp only [applyQOp, markQueueItemCompleted]
      split
      · exact ⟨r, hget, hcf⟩
      · rename_i j hfind
        split
        · rename_i rj hj
          by_cases hji : j = i
          · subst hji
            rw [hget] at hj
            cases hj
            refine ⟨_, List.getElem?_set_self hlt, ?_⟩
            cases succeeded
            · exact Or.inr rfl
            · exact Or.inl rfl
          · refine ⟨r, ?_, hcf⟩
            rw [List.getElem?_set_ne hji]
            exact hget
        · exact ⟨r, hget, hcf⟩
  | resetStale cutoff =>
      simp only [applyQOp, resetStaleQueueItems]
      have hcond : staleCond cutoff r = false := by
        rcases hcf with h | h <;> simp [staleCond, h]
      refine ⟨r, ?_, hcf⟩
      rw [List.getElem?_map, hget]
      simp [hcond]

lemma applyQOps_settled (ops : List QOp) :
    ∀ (rows : List QRow) (i : Nat) (r : QRow), rows[i]? = some r → QSettled r →
      ∃ r2, (applyQOps rows ops)[i]? = some r2 ∧ QSettled r2 := by
  induction ops with
  | nil => exact fun rows i r hget hcf => ⟨r, hget, hcf⟩
  | cons op rest ih =>
      intro rows i r hget hcf
      obtain ⟨r1, hget1, hcf1⟩ := applyQOp_settled rows op i r hget hcf
      exact ih (applyQOp rows op) i r1 hget1 hcf1

lemma mem_of_getElem?_eq_some {α : Type} {l : List α} {i : Nat} {a : α}
    (h : l[i]? = some a) : a ∈ l := by
  obtain ⟨hlt, he⟩ := List.getElem?_eq_some.mp h
  exact he ▸ List.getElem_mem hlt

/-- C9: `lease_next` returns only a row whose status is `pending` — the
oldest by `enqueued_at` — atomically flipping it to `in_progress` with
`started_at = now`, or none when no pending row exists; and once a row's
status is `completed` or `failed` (as set by `mark_queue_item_completed`
together with `completed_at`), no subsequent sequence of queue operations
makes a lease select that row again. -/
theorem queue_lease_settled_never_leased (rows : List QRow) (now : Nat) :
    ((leaseNextQueueItem now rows).1 = none ↔ ∀ r ∈ rows, r.status ≠ .pending) ∧
    (∀ i, leaseIdx rows = some i →
      ∃ r, rows[i]? = some r ∧ r.status = .pending ∧
        (∀ r2 ∈ rows, r2.status = .pending → r.enqueued_at ≤ r2.enqueued_at) ∧
        leaseNextQueueItem now rows =
          (some { r with status := .inProgress, started_at := some now },
           rows.set i { r with status := .inProgress, started_at := some now })) ∧
    (∀ i r, rows[i]? = some r → (r.status = .completed ∨ r.status = .failed) →
      ∀ ops : List QOp,
        ∃ r2, (applyQOps rows ops)[i]? = some r2 ∧
          (r2.status = .completed ∨ r2.status = .failed) ∧
          ∀ j, leaseIdx (applyQOps rows ops) = some j → j ≠ i) := by
  refine ⟨?_, ?_, ?_⟩
  · unfold leaseNextQueueItem
    split
    · rename_i hidx
      exact iff_of_true rfl ((leaseIdx_none_iff rows).mp hidx)
    · rename_i i hidx
      obtain ⟨r, hget, hp, _⟩ := leaseIdx_some_spec rows i hidx
      split
      · rename_i r3 hg3
        rw [hget] at hg3
        cases hg3
        refine iff_of_false (by simp) ?_
        intro hall
        exact hall r (mem_of_getElem?_eq_some hget) hp
      · rename_i hg3
        rw [hget] at hg3
        cases hg3
  · intro i h
    obtain ⟨r, hget, hp, hmin⟩ := leaseIdx_some_spec rows i h
    refine ⟨r, hget, hp, hmin, ?_⟩
    unfold leaseNextQueueItem
    split
    · rename_i hnone
      rw [h] at hnone
      cases hnone
    · rename_i j hj
      rw [h] at hj
      cases hj
      split
      · rename_i r3 hg3
        rw [hget] at hg3
        cases hg3
        rfl
      · rename_i hg3
        rw [hget] at hg3
        cases hg3
  · intro i r hget hcf ops
    obtain ⟨r2, hget2, hcf2⟩ :=
      applyQOps_settled ops rows i r hget (by exact hcf)
    exact ⟨r2, hget2, hcf2,
      leaseIdx_skips_settled (applyQOps rows ops) i r2 hget2 hcf2⟩

/-- Witness for `queue_lease_settled_never_leased`: a two-row queue with a
completed row at index 0 and a pending row at index 1; a later lease picks
index 1, not 0. -/
theorem queue_lease_settled_never_leased_witness :
    ∃ r2, (applyQOps
        [{ id := 1, status := QStatus.completed, enqueued_at := 0 },
         { id := 2, status := QStatus.pending, enqueued_at := 3 }]
        [QOp.lease 7])[0]? = some r2 ∧
      (r2.status = .completed ∨ r2.status = .failed) ∧
      ∀ j, leaseIdx (applyQOps
        [{ id := 1, status := QStatus.completed, enqueued_at := 0 },
         { id := 2, status := QStatus.pending, enqueued_at := 3 }]
        [QOp.lease 7]) = some j → j ≠ 0 :=
  (queue_lease_settled_never_leased
    [{ id := 1, status := QStatus.completed, enqueued_at := 0 },
     { id := 2, status := QStatus.pending, enqueued_at := 3 }] 7).2.2
    0 { id := 1, status := QStatus.completed, enqueued_at := 0 }
    rfl (Or.inl rfl) [QOp.lease 7]

/-- All attempt entries except possibly the final one are failures: the retry
loop stops at the first success. -/
def okOnlyAtEnd : List AttemptEntry → Bool
  | [] => true
  | [_] => true
  | e :: rest => (e.status != "ok") && okOnlyAtEnd rest

/-- All task-log entries except possibly the final one succeeded: the
scheduler aborts the group at the first failed task. -/
def tasksOkButLast : List TaskLogEntry → Bool
  | [] => true
  | [_] => true
  | t :: rest => (t.status == "ok") && tasksOkButLast rest

/-- The `last_error` carried out of a retry loop: the error of the final
attempt, or the fallback when no attempt ran. -/
def lastErrOf (l : List AttemptEntry) (fallback : Option String) : Option String :=
  match l.getLast? with
  | some last => last.error
  | none => fallback

lemma statusStr_eq_ok_iff (s : RStatus) : statusStr s = "ok" ↔ s = .ok := by
  cases s <;> simp [statusStr]

lemma lastErrOf_cons (e : AttemptEntry) (l : List AttemptEntry) (fb : Option String) :
    lastErrOf (e :: l) fb = lastErrOf l e.error := by
  cases l with
  | nil => rfl
  | cons x xs =>
      rcases hxl : (x :: xs).getLast? with _ | y
      · have : (x :: xs) ≠ [] := by simp
        rw [List.getLast?_eq_none_iff] at hxl
        exact absurd hxl this
      · simp [lastErrOf, List.getLast?_cons_cons, hxl]

lemma okOnlyAtEnd_cons (e : AttemptEntry) (l : List AttemptEntry)
    (he : e.status ≠ "ok") (hl : okOnlyAtEnd l = true) :
    okOnlyAtEnd (e :: l) = true := by
  cases l with
  | nil => rfl
  | cons x xs =>
      simp only [okOnlyAtEnd, Bool.and_eq_true]
      exact ⟨by simp [he], hl⟩

lemma okOnlyAtEnd_singleton (e : AttemptEntry) : okOnlyAtEnd [e] = true := rfl

lemma runOneAttempt_spec (env : Env) (sub : SubRunner) (getCfg : String → RunConfig)
    (cfg : RunConfig) (agentKey : String) (stepIdx : Nat) (groupId : String)
    (task : TaskGroupTask) (taskIdentifier : String) (attemptIdx : Nat)
    (st : RunState) (g : Glob) :
    ∃ entry success newErr res st1 g1,
      runOneAttempt env sub getCfg cfg agentKey stepIdx groupId task taskIdentifier
        attemptIdx st g = (entry, success, newErr, res, st1, g1) ∧
      (success = true → entry.status = "ok" ∧ entry.error = none) ∧
      (success = false → entry.status ≠ "ok" ∧ entry.error = newErr ∧ res = none) := by
  unfold runOneAttempt
  cases task with
  | useTool tid rp toolName toolParams =>
      dsimp only
      split
      · rename_i hok
        refine ⟨_, _, _, _, _, _, rfl, ?_, ?_⟩
        · intro _
          rw [hok]
          exact ⟨rfl, rfl⟩
        · intro h
          simp at h
      · rename_i hnok
        refine ⟨_, _, _, _, _, _, rfl, ?_, ?_⟩
        · intro h
          simp at h
        · intro _
          refine ⟨?_, rfl, rfl⟩
          simpa [statusStr_eq_ok_iff] using hnok
  | delegate tid rp details =>
      dsimp only
      split
      · rename_i err heq
        refine ⟨_, _, _, _, _, _, rfl, ?_, ?_⟩
        · intro h
          simp at h
        · intro _
          exact ⟨by simp, rfl, rfl⟩
      · rename_i heq
        refine ⟨_, _, _, _, _, _, rfl, ?_, ?_⟩
        · intro _
          exact ⟨rfl, rfl⟩
        · intro h
          simp at h

lemma getLast?_cons_of_getLast? {α : Type} (e : α) {l : List α} {x : α}
    (h : l.getLast? = some x) : (e :: l).getLast? = some x := by
  cases l with
  | nil => cases h
  | cons a as => rw [List.getLast?_cons_cons]; exact h

lemma runTaskAttempts_spec (env : Env) (sub : SubRunner) (getCfg : String → RunConfig)
    (cfg : RunConfig) (agentKey : String) (stepIdx : Nat) (groupId : String)
    (task : TaskGroupTask) (taskIdentifier : String) :
    ∀ (remaining attemptIdx : Nat) (acc : List AttemptEntry) (lastErr : Option String)
      (st : RunState) (g : Glob),
      ∃ suffix success lastError res st2 g2,
        runTaskAttempts env sub getCfg cfg agentKey stepIdx groupId task taskIdentifier
          remaining attemptIdx acc lastErr st g
          = (acc ++ suffix, success, lastError, res, st2, g2) ∧
        suffix.length ≤ remaining ∧
        okOnlyAtEnd suffix = true ∧
        (success = true →
          ∃ last, suffix.getLast? = some last ∧ last.status = "ok" ∧ lastError = none) ∧
        (success = false →
          suffix.length = remaining ∧
          suffix.all (fun e => e.status != "ok") = true ∧
          lastError = lastErrOf suffix lastErr ∧ res = none) := by
  intro remaining
  induction remaining with
  | zero =>
      intro attemptIdx acc lastErr st g
      refine ⟨[], false, lastErr, none, st, g, ?_, by simp, rfl, ?_, ?_⟩
      · simp [runTaskAttempts]
      · intro h
        simp at h
      · intro _
        exact ⟨rfl, rfl, rfl, rfl⟩
  | succ r ih =>
      intro attemptIdx acc lastErr st g
      obtain ⟨entry, success, newErr, res, st1, g1, hone, hsucc, hfail⟩ :=
        runOneAttempt_spec env sub getCfg cfg agentKey stepIdx groupId task
          taskIdentifier attemptIdx st g
      have hstep : runTaskAttempts env sub getCfg cfg agentKey stepIdx groupId task
          taskIdentifier (r + 1) attemptIdx acc lastErr st g =
          (if success then (acc ++ [entry], true, none, res, st1, g1)
           else runTaskAttempts env sub getCfg cfg agentKey stepIdx groupId task
             taskIdentifier r (attemptIdx + 1) (acc ++ [entry]) newErr st1 g1) := by
        simp only [runTaskAttempts]
        rw [hone]
      cases hs : success with
      | false =>
          rw [hstep, if_neg (by simp [hs])]
          obtain ⟨hne, herr, _⟩ := hfail hs
          obtain ⟨suffix2, success2, lastError2, res2, st3, g3, hrec, hlen2, hchain2,
            hsucc2, hfail2⟩ := ih (attemptIdx + 1) (acc ++ [entry]) newErr st1 g1
          refine ⟨entry :: suffix2, success2, lastError2, res2, st3, g3, ?_, ?_, ?_, ?_, ?_⟩
          · rw [hrec]
            simp
          · simp only [List.length_cons]
            omega
          · exact okOnlyAtEnd_cons entry suffix2 hne hchain2
          · intro h2
            obtain ⟨last, hlast, hlst, hle⟩ := hsucc2 h2
            exact ⟨last, getLast?_cons_of_getLast? entry hlast, hlst, hle⟩
          · intro h2
            obtain ⟨hl2, hall2, herr2, hres2⟩ := hfail2 h2
            refine ⟨by simp [hl2], ?_, ?_, hres2⟩
            · simp only [List.all_cons, Bool.and_eq_true, bne_iff_ne, ne_eq]
              exact ⟨hne, by simpa using hall2⟩
            · rw [lastErrOf_cons, herr]
              exact herr2
      | true =>
          rw [hstep, if_pos (by rw [hs])]
          obtain ⟨hst, herrn⟩ := hsucc hs
          refine ⟨[entry], true, none, res, st1, g1, rfl, by simp,
            okOnlyAtEnd_singleton entry, ?_, ?_⟩
          · intro _
            exact ⟨entry, by simp, hst, rfl⟩
          · intro h
            simp at h

/-- The scheduler's `tasks_log` entries correspond 1-1, in declaration order,
to a prefix of the child tasks, each with the per-task retry contract:
at most `max(retry_policy.attempts, 1)` attempts, retries stopping at the
first success, and a failed task having exhausted every attempt with the
task error equal to its final attempt's error. -/
def TaskLogsMatch (idx : Nat) : List TaskGroupTask → List TaskLogEntry → Prop
  | _, [] => True
  | [], _ :: _ => False
  | task :: rest, tl :: tls =>
      tl.task_id = pyOrStr task.taskId (toString idx) ∧
      tl.task_type = task.taskType ∧
      tl.attempts.length ≤ max task.retryPolicy.attempts 1 ∧
      okOnlyAtEnd tl.attempts = true ∧
      (tl.status = "error" →
        tl.attempts.length = max task.retryPolicy.attempts 1 ∧
        tl.attempts.all (fun e => e.status != "ok") = true ∧
        tl.error = lastErrOf tl.attempts none) ∧
      TaskLogsMatch (idx + 1) rest tls

lemma tasksOkButLast_cons (t : TaskLogEntry) (l : List TaskLogEntry)
    (ht : t.status = "ok") (hl : tasksOkButLast l = true) :
    tasksOkButLast (t :: l) = true := by
  cases l with
  | nil => rfl
  | cons x xs =>
      simp only [tasksOkButLast, Bool.and_eq_true]
      exact ⟨by simp [ht], hl⟩

lemma taskLogsMatch_nil (idx : Nat) (tasks : List TaskGroupTask) :
    TaskLogsMatch idx tasks [] := by
  cases tasks <;> simp [TaskLogsMatch]

lemma runTasks_spec (env : Env) (sub : SubRunner) (getCfg : String → RunConfig)
    (cfg : RunConfig) (agentKey : String) (stepIdx : Nat) (groupId : String) :
    ∀ (tasks : List TaskGroupTask) (idx : Nat) (accLog : List TaskLogEntry)
      (accResp : List Val) (st : RunState) (g : Glob),
      ∃ newLogs oc st2 g2,
        runTasks env sub getCfg cfg agentKey stepIdx groupId tasks idx accLog accResp st g
          = (oc, st2, g2) ∧
        oc.group_id = groupId ∧
        oc.tasks_log = accLog ++ newLogs ∧
        newLogs.length ≤ tasks.length ∧
        TaskLogsMatch idx tasks newLogs ∧
        tasksOkButLast newLogs = true ∧
        (oc.status = "ok" ∨ oc.status = "error") ∧
        (oc.status = "ok" →
          newLogs.length = tasks.length ∧
          newLogs.all (fun t => t.status == "ok") = true ∧ oc.error = none) ∧
        (oc.status = "error" →
          ∃ last, newLogs.getLast? = some last ∧ last.status = "error" ∧
            oc.error = last.error) := by
  intro tasks
  induction tasks with
  | nil =>
      intro idx accLog accResp st g
      refine ⟨[], _, st, g, rfl, rfl, by simp, by simp, taskLogsMatch_nil _ _, rfl,
        Or.inl rfl, ?_, ?_⟩
      · intro _
        exact ⟨rfl, rfl, rfl⟩
      · intro h
        simp at h
  | cons task rest ih =>
      intro idx accLog accResp st g
      obtain ⟨suffix, success, lastError, res, st1, g1, hrta, hlen, hchain, hsuccA, hfailA⟩ :=
        runTaskAttempts_spec env sub getCfg cfg agentKey stepIdx groupId task
          (pyOrStr task.taskId (toString idx)) (max task.retryPolicy.attempts 1) 1 [] none st g
      cases hs : success with
      | false =>
          subst hs
          have hstep : runTasks env sub getCfg cfg agentKey stepIdx groupId
              (task :: rest) idx accLog accResp st g =
              (({ status := "error",
                  error := lastError,
                  group_id := groupId,
                  tasks_log := accLog ++ [({ task_id := pyOrStr task.taskId (toString idx),
                                             task_type := task.taskType,
                                             status := "error",
                                             attempts := suffix,
                                             result := res,
                                             error := lastError } : TaskLogEntry)],
                  response := some (.vobj [("group_id", .vstr groupId),
                    ("tasks", .varr (accResp ++ [taskRespVal
                      (pyOrStr task.taskId (toString idx)) false res lastError]))]) } : TGOutcome),
               st1, g1) := by
            simp only [runTasks]
            rw [hrta]
            rfl
          rw [hstep]
          obtain ⟨hlenEq, hallFail, herrEq, hresEq⟩ := hfailA rfl
          refine ⟨[{ task_id := pyOrStr task.taskId (toString idx),
                     task_type := task.taskType,
                     status := "error",
                     attempts := suffix,
                     result := res,
                     error := lastError }],
            _, st1, g1, rfl, rfl, rfl, by simp, ?_, rfl, Or.inr rfl, ?_, ?_⟩
          · refine ⟨rfl, rfl, by simp [hlen], hchain, ?_, taskLogsMatch_nil _ _⟩
            intro _
            exact ⟨hlenEq, hallFail, herrEq⟩
          · intro h
            simp at h
          · intro _
            refine ⟨{ task_id := pyOrStr task.taskId (toString idx),
                      task_type := task.taskType,
                      status := "error",
                      attempts := suffix,
                      result := res,
                      error := lastError }, ?_, rfl, rfl⟩
            simp
      | true =>
          subst hs
          have hstep : runTasks env sub getCfg cfg agentKey stepIdx groupId
              (task :: rest) idx accLog accResp st g =
              runTasks env sub getCfg cfg agentKey stepIdx groupId rest (idx + 1)
                (accLog ++ [({ task_id := pyOrStr task.taskId (toString idx),
                               task_type := task.taskType,
                               status := "ok",
                               attempts := suffix,
                               result := res,
                               error := none } : TaskLogEntry)])
                (accResp ++ [taskRespVal (pyOrStr task.taskId (toString idx)) true res lastError])
                st1 g1 := by
            simp only [runTasks]
            rw [hrta]
            rfl
          rw [hstep]
          obtain ⟨newLogs2, oc2, st3, g3, hrec, hgid2, hlog2, hlen2, hmatch2, hok2,
            hst2, hsucc2, hfail2⟩ :=
            ih (idx + 1)
              (accLog ++ [{ task_id := pyOrStr task.taskId (toString idx),
                            task_type := task.taskType,
                            status := "ok",
                            attempts := suffix,
                            result := res,
                            error := none }])
              (accResp ++ [taskRespVal (pyOrStr task.taskId (toString idx)) true res lastError])
              st1 g1
          refine ⟨{ task_id := pyOrStr task.taskId (toString idx),
                    task_type := task.taskType,
                    status := "ok",
                    attempts := suffix,
                    result := res,
                    error := none } :: newLogs2,
            oc2, st3, g3, hrec, hgid2, ?_, by simpa using Nat.succ_le_succ hlen2, ?_, ?_,
            hst2, ?_, ?_⟩
          · rw [hlog2]
            simp
          · refine ⟨rfl, rfl, hlen, hchain, ?_, hmatch2⟩
            intro h
            dsimp only at h
            exact absurd h (by decide)
          · exact tasksOkButLast_cons _ _ rfl hok2
          · intro h2
            obtain ⟨hl2, hall2, herr2⟩ := hsucc2 h2
            exact ⟨by simp [hl2], by simp [hall2], herr2⟩
          · intro h2
            obtain ⟨last, hlast, hlst, herr2⟩ := hfail2 h2
            exact ⟨last, getLast?_cons_of_getLast? _ hlast, hlst, herr2⟩

lemma runTasks_contract (env : Env) (sub : SubRunner) (getCfg : String → RunConfig)
    (cfg : RunConfig) (agentKey : String) (stepIdx : Nat) (tasks : List TaskGroupTask)
    (st : RunState) (groupId : String) (g1 : Glob) :
    ∃ oc st2 g2,
      runTasks env sub getCfg cfg agentKey stepIdx groupId tasks 0 [] [] st g1
        = (oc, st2, g2) ∧
      oc.tasks_log.length ≤ tasks.length ∧
      TaskLogsMatch 0 tasks oc.tasks_log ∧
      tasksOkButLast oc.tasks_log = true ∧
      (oc.status = "ok" ∨ oc.status = "error") ∧
      (oc.status = "ok" → oc.tasks_log.length = tasks.length ∧
        oc.tasks_log.all (fun t => t.status == "ok") = true ∧ oc.error = none) ∧
      (oc.status = "error" → ∃ last, oc.tasks_log.getLast? = some last ∧
        last.status = "error" ∧ oc.error = last.error) := by
  obtain ⟨newLogs, oc, st2, g2, hrun, _, hlog, hlen, hmatch, hoklast, hst, hsucc, hfail⟩ :=
    runTasks_spec env sub getCfg cfg agentKey stepIdx groupId tasks 0 [] [] st g1
  have hlog2 : oc.tasks_log = newLogs := by simpa using hlog
  refine ⟨oc, st2, g2, hrun, ?_, ?_, ?_, hst, ?_, ?_⟩
  · rw [hlog2]
    exact hlen
  · rw [hlog2]
    exact hmatch
  · rw [hlog2]
    exact hoklast
  · intro h
    obtain ⟨h1, h2, h3⟩ := hsucc h
    rw [hlog2]
    exact ⟨h1, h2, h3⟩
  · intro h
    obtain ⟨last, h1, h2, h3⟩ := hfail h
    rw [hlog2]
    exact ⟨last, h1, h2, h3⟩

/-- C5: for every TASK_GROUP action handled by the scheduler, the child tasks
run sequentially in declaration order; each task is attempted at most
`max(retry_policy.attempts, 1)` times, so a task with `attempts == 1` runs at
most once; attempts for one task stop at the first success (only the final
attempt entry can be successful); and if a task exhausts all its attempts
without success, no subsequent sibling task is started (only the final task
log entry can be a failure, and on group failure the log ends at that task),
and the group result has status `error` carrying the last error (the failing
task's final attempt error). -/
theorem task_group_scheduler_contract (env : Env) (sub : SubRunner)
    (getCfg : String → RunConfig) (cfg : RunConfig) (agentKey : String)
    (stepIdx : Nat) (gid : Option String) (tasks : List TaskGroupTask)
    (st : RunState) (g : Glob) (hallow : cfg.allow_task_group = true) :
    ∃ oc st2 g2,
      handleTaskGroup env sub getCfg gid tasks cfg agentKey stepIdx st g = (oc, st2, g2) ∧
      oc.tasks_log.length ≤ tasks.length ∧
      TaskLogsMatch 0 tasks oc.tasks_log ∧
      tasksOkButLast oc.tasks_log = true ∧
      (oc.status = "ok" ∨ oc.status = "error") ∧
      (oc.status = "ok" → oc.tasks_log.length = tasks.length ∧
        oc.tasks_log.all (fun t => t.status == "ok") = true ∧ oc.error = none) ∧
      (oc.status = "error" → ∃ last, oc.tasks_log.getLast? = some last ∧
        last.status = "error" ∧ oc.error = last.error) := by
  unfold handleTaskGroup
  rw [hallow]
  rcases gid with _ | s
  · dsimp only
    exact runTasks_contract env sub getCfg cfg agentKey stepIdx tasks st _ _
  · dsimp only
    by_cases hs : s = ""
    · rw [if_pos hs]
      exact runTasks_contract env sub getCfg cfg agentKey stepIdx tasks st _ _
    · rw [if_neg hs]
      exact runTasks_contract env sub getCfg cfg agentKey stepIdx tasks st _ _

/-- The `builtin:echo` provider (`tools/registry.py::EchoTool.run`). -/
def echoProvider : ToolRunInput → ToolRunOutput := fun inp =>
  { ok := true,
    result := .vobj [("echo", .vobj inp.params), ("system", .vobj inp.system),
                     ("metadata", .vobj inp.metadata)] }

/-- A provider registry with `builtin:echo` plus an always-failing test
provider (as in `tests/engine/test_task_groups.py`). -/
def testProviders : String → Option (ToolRunInput → ToolRunOutput) := fun pt =>
  if pt = "builtin:echo" then some echoProvider
  else if pt = "test:fail" then some (fun _ => { ok := false, error := some "boom" })
  else none

/-- The `echo` tool of scenario E2/E3: `message` is agent-sourced and
required, `customer_id` is system-sourced. -/
def echoSpec : ToolRuntimeSpec :=
  { key := "echo", provider_type := "builtin:echo",
    params_schema := [("message", { source := some "agent", required := true }),
                      ("customer_id", { source := some "system", required := false })] }

/-- Single agent equipped with `echo` (scenario E2/E3). -/
def soloCfg : RunConfig :=
  { current_agent := "solo", equipped_tools := ["echo"], tools_map := [("echo", echoSpec)],
    allowed_routes := [], allow_respond := true,
    system_params := [("customer_id", .vstr "abc")] }

/-- Decision helper. -/
def mkDec (d : DecisionDetails) : AgentDecision :=
  { action_reasoning := "r", action_details := d }

/-- Identity time source starting at zero: each read ticks the clock. -/
def clk0 : Clk := { ts := fun i => i, idx := 0 }

/-- The always-failing tool of scenario E4. -/
def failSpec : ToolRuntimeSpec := { key := "fail", provider_type := "test:fail" }

/-- Scenario E4 agent: task groups allowed, equipped with the failing tool. -/
def primCfg : RunConfig :=
  { current_agent := "primary", equipped_tools := ["fail"],
    tools_map := [("fail", failSpec)], allowed_routes := [], allow_respond := true,
    allow_task_group := true }

/-- Scenario E4 decision: a TASK_GROUP with one failing `use_tool` child and
two attempts. -/
def decideE4 : Nat → AgentDecision := fun _ =>
  mkDec (.taskGroup (some "fail-group")
    [.useTool (some "fail-task") { attempts := 2 } "fail" []])

/-- Scenario E4 environment. -/
def envE4 : Env := { providers := testProviders, decide := decideE4 }

/-- Witness for `task_group_scheduler_contract`: the E4 scenario (one
`use_tool` child of an always-failing tool with two attempts). -/
theorem task_group_scheduler_contract_witness :
    ∃ oc st2 g2,
      handleTaskGroup envE4 (subRunnerOf envE4 3) (fun _ => primCfg) (some "fail-group")
        [.useTool (some "fail-task") { attempts := 2 } "fail" []] primCfg "primary" 0
        {} { clk := clk0 } = (oc, st2, g2) ∧
      oc.tasks_log.length ≤ 1 ∧
      TaskLogsMatch 0 [.useTool (some "fail-task") { attempts := 2 } "fail" []] oc.tasks_log ∧
      tasksOkButLast oc.tasks_log = true ∧
      (oc.status = "ok" ∨ oc.status = "error") ∧
      (oc.status = "ok" → oc.tasks_log.length = 1 ∧
        oc.tasks_log.all (fun t => t.status == "ok") = true ∧ oc.error = none) ∧
      (oc.status = "error" → ∃ last, oc.tasks_log.getLast? = some last ∧
        last.status = "error" ∧ oc.error = last.error) :=
  task_group_scheduler_contract envE4 (subRunnerOf envE4 3) (fun _ => primCfg) primCfg
    "primary" 0 (some "fail-group")
    [.useTool (some "fail-task") { attempts := 2 } "fail" []] {} { clk := clk0 } rfl

/-- A log entry appended by the task-group handler: a *tool* entry for the
given agent at the given step number and epoch. -/
def ChildEntry (cur : String) (stepN epochN : Nat) (e : LogEntry) : Prop :=
  ∃ t, e = LogEntry.tool t ∧ t.agent_key = cur ∧ t.epoch = epochN ∧ t.step = stepN

/-- A log entry appended after the agent entry of a step: a tool entry or a
task-group entry for the given agent/step/epoch. -/
def PostEntry (cur : String) (stepN epochN : Nat) (e : LogEntry) : Prop :=
  ChildEntry cur stepN epochN e ∨
  ∃ tg, e = LogEntry.task_group tg ∧ tg.agent_key = cur ∧ tg.epoch = epochN ∧
    tg.step = stepN

/-- The `seq` fields of the events count up from `n`. -/
def SeqFrom : Nat → List StepEvent → Prop
  | _, [] => True
  | n, e :: rest => e.seq = n ∧ SeqFrom (n + 1) rest

lemma seqFrom_append (evs1 evs2 : List StepEvent) :
    ∀ n, SeqFrom n evs1 → SeqFrom (n + evs1.length) evs2 → SeqFrom n (evs1 ++ evs2) := by
  induction evs1 with
  | nil => intro n _ h2; simpa using h2
  | cons e rest ih =>
      intro n h1 h2
      obtain ⟨hseq, hrest⟩ := h1
      refine ⟨hseq, ih (n + 1) hrest ?_⟩
      have : n + 1 + rest.length = n + (rest.length + 1) := by omega
      rw [this]
      simpa [Nat.add_comm] using h2

/-- State delta produced by the task-group handler within one step: only tool
entries for the current agent at `step + 1` in the current epoch are appended,
plus their step events with contiguous sequence numbers; the epoch machinery
and the pending route contexts are untouched. -/
def SchedDelta (cur : String) (stepN : Nat) (st st2 : RunState) : Prop :=
  (∃ newEntries : List LogEntry,
    st2.exec_log.entries = st.exec_log.entries ++ newEntries ∧
    ∀ e ∈ newEntries, ChildEntry cur stepN st.exec_log.current_epoch e) ∧
  st2.exec_log.current_epoch = st.exec_log.current_epoch ∧
  st2.exec_log.epoch_by_agent = st.exec_log.epoch_by_agent ∧
  st2.exec_log.last_agent = st.exec_log.last_agent ∧
  st2.pending_route_context = st.pending_route_context ∧
  ∃ newEvs : List StepEvent,
    st2.step_events = st.step_events ++ newEvs ∧
    st2.next_seq = st.next_seq + newEvs.length ∧
    SeqFrom st.next_seq newEvs

lemma schedDelta_refl (cur : String) (stepN : Nat) (st : RunState) :
    SchedDelta cur stepN st st := by
  refine ⟨⟨[], by simp, by simp⟩, rfl, rfl, rfl, rfl, [], by simp, by simp, trivial⟩

lemma schedDelta_trans {cur : String} {stepN : Nat} {st st2 st3 : RunState}
    (h1 : SchedDelta cur stepN st st2) (h2 : SchedDelta cur stepN st2 st3) :
    SchedDelta cur stepN st st3 := by
  obtain ⟨⟨ne1, he1, hc1⟩, hep1, hag1, hla1, hpr1, ev1, hev1, hn1, hs1⟩ := h1
  obtain ⟨⟨ne2, he2, hc2⟩, hep2, hag2, hla2, hpr2, ev2, hev2, hn2, hs2⟩ := h2
  refine ⟨⟨ne1 ++ ne2, by rw [he2, he1]; simp, ?_⟩,
    by rw [hep2, hep1], by rw [hag2, hag1], by rw [hla2, hla1], by rw [hpr2, hpr1],
    ev1 ++ ev2, by rw [hev2, hev1]; simp, by rw [hn2, hn1]; simp [Nat.add_assoc],
    ?_⟩
  · intro e he
    rcases List.mem_append.mp he with h | h
    · exact hc1 e h
    · have := hc2 e h
      rwa [hep1] at this
  · refine seqFrom_append ev1 ev2 st.next_seq hs1 ?_
    rw [← hn1]
    exact hs2

lemma logToolExecution_schedDelta (agentKey : String) (stepIdx : Nat)
    (toolName : String) (toolParams : List (String × Val))
    (result : OrchestratorResult) (aS aD : Nat) (gid ptid : Option String)
    (att : Option Nat) (st : RunState) (g : Glob) :
    SchedDelta agentKey stepIdx st
      (logToolExecution agentKey stepIdx toolName toolParams result aS aD
        gid ptid att st g).2.1 := by
  unfold logToolExecution RunState.appendEvent
  dsimp only
  refine ⟨⟨[LogEntry.tool _], rfl, ?_⟩, rfl, rfl, rfl, rfl, [_], rfl, by simp,
    ⟨rfl, trivial⟩⟩
  intro e he
  simp only [List.mem_singleton] at he
  subst he
  exact ⟨_, rfl, rfl, rfl, rfl⟩

lemma runOneAttempt_schedDelta (env : Env) (sub : SubRunner)
    (getCfg : String → RunConfig) (cfg : RunConfig) (agentKey : String)
    (stepIdx : Nat) (groupId : String) (task : TaskGroupTask)
    (taskIdentifier : String) (attemptIdx : Nat) (st : RunState) (g : Glob) :
    SchedDelta agentKey (stepIdx + 1) st
      (runOneAttempt env sub getCfg cfg agentKey stepIdx groupId task taskIdentifier
        attemptIdx st g).2.2.2.2.1 := by
  unfold runOneAttempt
  cases task with
  | useTool tid rp toolName toolParams =>
      dsimp only
      split
      · exact logToolExecution_schedDelta agentKey (stepIdx + 1) toolName toolParams
          _ _ _ _ _ _ st _
      · exact logToolExecution_schedDelta agentKey (stepIdx + 1) toolName toolParams
          _ _ _ _ _ _ st _
  | delegate tid rp details =>
      dsimp only
      split
      · exact schedDelta_refl _ _ _
      · exact schedDelta_refl _ _ _

lemma runTaskAttempts_schedDelta (env : Env) (sub : SubRunner)
    (getCfg : String → RunConfig) (cfg : RunConfig) (agentKey : String)
    (stepIdx : Nat) (groupId : String) (task : TaskGroupTask)
    (taskIdentifier : String) :
    ∀ (remaining attemptIdx : Nat) (acc : List AttemptEntry)
      (lastErr : Option String) (st : RunState) (g : Glob),
      SchedDelta agentKey (stepIdx + 1) st
        (runTaskAttempts env sub getCfg cfg agentKey stepIdx groupId task
          taskIdentifier remaining attemptIdx acc lastErr st g).2.2.2.2.1 := by
  intro remaining
  induction remaining with
  | zero =>
      intro attemptIdx acc lastErr st g
      exact schedDelta_refl _ _ _
  | succ r ih =>
      intro attemptIdx acc lastErr st g
      have hone := runOneAttempt_schedDelta env sub getCfg cfg agentKey stepIdx groupId
        task taskIdentifier attemptIdx st g
      rcases hrone : runOneAttempt env sub getCfg cfg agentKey stepIdx groupId task
        taskIdentifier attemptIdx st g with ⟨entry, success, newErr, res, st1, g1⟩
      rw [hrone] at hone
      dsimp only at hone
      simp only [runTaskAttempts]
      rw [hrone]
      dsimp only
      cases success with
      | true => simpa using hone
      | false =>
          simp only [Bool.false_eq_true, if_false]
          exact schedDelta_trans hone (ih (attemptIdx + 1) (acc ++ [entry]) newErr st1 g1)

lemma runTasks_schedDelta (env : Env) (sub : SubRunner)
    (getCfg : String → RunConfig) (cfg : RunConfig) (agentKey : String)
    (stepIdx : Nat) (groupId : String) :
    ∀ (tasks : List TaskGroupTask) (idx : Nat) (accLog : List TaskLogEntry)
      (accResp : List Val) (st : RunState) (g : Glob),
      SchedDelta agentKey (stepIdx + 1) st
        (runTasks env sub getCfg cfg agentKey stepIdx groupId tasks idx accLog
          accResp st g).2.1 := by
  intro tasks
  induction tasks with
  | nil =>
      intro idx accLog accResp st g
      exact schedDelta_refl _ _ _
  | cons task rest ih =>
      intro idx accLog accResp st g
      have hatt := runTaskAttempts_schedDelta env sub getCfg cfg agentKey stepIdx groupId
        task (pyOrStr task.taskId (toString idx)) (max task.retryPolicy.attempts 1) 1
        [] none st g
      rcases hrta : runTaskAttempts env sub getCfg cfg agentKey stepIdx groupId task
          (pyOrStr task.taskId (toString idx)) (max task.retryPolicy.attempts 1) 1
          [] none st g with ⟨attempts, success, lastError, res, st1, g1⟩
      rw [hrta] at hatt
      dsimp only at hatt
      simp only [runTasks]
      rw [hrta]
      dsimp only
      cases success with
      | true =>
          simp only [if_pos]
          exact schedDelta_trans hatt (ih (idx + 1) _ _ st1 g1)
      | false =>
          simp only [Bool.false_eq_true, if_false]
          exact hatt

lemma handleTaskGroup_schedDelta (env : Env) (sub : SubRunner)
    (getCfg : String → RunConfig) (gid : Option String) (tasks : List TaskGroupTask)
    (cfg : RunConfig) (agentKey : String) (stepIdx : Nat) (st : RunState) (g : Glob) :
    SchedDelta agentKey (stepIdx + 1) st
      (handleTaskGroup env sub getCfg gid tasks cfg agentKey stepIdx st g).2.1 := by
  unfold handleTaskGroup
  rcases gid with _ | s
  · dsimp only
    split
    · exact schedDelta_refl _ _ _
    · exact runTasks_schedDelta env sub getCfg cfg agentKey stepIdx _ tasks 0 [] [] st _
  · dsimp only
    by_cases hs : s = ""
    · rw [if_pos hs]
      split
      · exact schedDelta_refl _ _ _
      · exact runTasks_schedDelta env sub getCfg cfg agentKey stepIdx _ tasks 0 [] [] st _
    · rw [if_neg hs]
      split
      · exact schedDelta_refl _ _ _
      · exact runTasks_schedDelta env sub getCfg cfg agentKey stepIdx _ tasks 0 [] [] st _

lemma dGet_dSet_self {α : Type} (d : List (String × α)) (k : String) (v : α) :
    dGet (dSet d k v) k = some v := by
  induction d with
  | nil => simp [dGet, dSet]
  | cons p rest ih =>
      obtain ⟨k1, v1⟩ := p
      by_cases h : k1 = k
      · simp [dGet, dSet, h]
      · simp [dGet, dSet, h, ih]

lemma dGet_dSet_ne {α : Type} (d : List (String × α)) (k k2 : String) (v : α)
    (h : k2 ≠ k) : dGet (dSet d k v) k2 = dGet d k2 := by
  have hne : k ≠ k2 := fun e => h e.symm
  induction d with
  | nil => simp [dGet, dSet, hne]
  | cons p rest ih =>
      obtain ⟨k1, v1⟩ := p
      by_cases hp : k1 = k
      · have hp2 : k1 ≠ k2 := by rw [hp]; exact hne
        simp [dGet, dSet, hp, hp2, hne]
      · by_cases hp2 : k1 = k2
        · simp [dGet, dSet, hp, hp2, h, hne]
        · simp [dGet, dSet, hp, hp2, ih]

/-- The epoch the agent adopts when `start_agent_epoch` runs for it. -/
def epochAfter (l : ExecLog) (agentKey : String) : Nat :=
  (l.startAgentEpoch agentKey).current_epoch

lemma startAgentEpoch_entries (l : ExecLog) (k : String) :
    (l.startAgentEpoch k).entries = l.entries := rfl

lemma currentEpochFor_startAgentEpoch (l : ExecLog) (k : String) :
    (l.startAgentEpoch k).currentEpochFor k = epochAfter l k := by
  unfold ExecLog.currentEpochFor ExecLog.startAgentEpoch epochAfter
  dsimp only
  rw [dGet_dSet_self]
  rfl

/-- The agent entries of a log, projected to `(agent_key, epoch)`, in order. -/
def agentSeqOf (entries : List LogEntry) : List (String × Nat) :=
  entries.filterMap (fun e =>
    match e with
    | .agent a => some (a.agent_key, a.epoch)
    | _ => none)

lemma agentSeqOf_append (l1 l2 : List LogEntry) :
    agentSeqOf (l1 ++ l2) = agentSeqOf l1 ++ agentSeqOf l2 := by
  simp [agentSeqOf]

lemma agentSeqOf_children_nil {cur : String} {stepN epochN : Nat}
    {l : List LogEntry} (h : ∀ e ∈ l, ChildEntry cur stepN epochN e) :
    agentSeqOf l = [] := by
  induction l with
  | nil => rfl
  | cons e rest ih =>
      obtain ⟨t, he, -⟩ := h e (by simp)
      subst he
      simp only [agentSeqOf, List.filterMap_cons]
      exact ih (fun e2 h2 => h e2 (by simp [h2]))

/-- The step-event sequence numbers so far are exactly `0, 1, …, next_seq-1`. -/
def EventSeqInv (st : RunState) : Prop :=
  st.step_events.map StepEvent.seq = List.range st.next_seq

lemma range_append_seqFrom :
    ∀ (evs : List StepEvent) (n : Nat), SeqFrom n evs →
      List.range n ++ evs.map StepEvent.seq = List.range (n + evs.length) := by
  intro evs
  induction evs with
  | nil => intro n _; simp
  | cons e rest ih =>
      intro n h
      obtain ⟨hseq, hrest⟩ := h
      have := ih (n + 1) hrest
      calc List.range n ++ (e :: rest).map StepEvent.seq
          = (List.range n ++ [n]) ++ rest.map StepEvent.seq := by simp [hseq]
        _ = List.range (n + 1) ++ rest.map StepEvent.seq := by rw [← List.range_succ]
        _ = List.range (n + 1 + rest.length) := this
        _ = List.range (n + (rest.length + 1)) := by ring_nf

lemma appendAgentEntry_spec (st1 : RunState) (a : AgentEntryData) (tms : Nat) :
    agentSeqOf (appendAgentEntry st1 a tms).exec_log.entries
      = agentSeqOf st1.exec_log.entries ++ [(a.agent_key, a.epoch)] ∧
    (appendAgentEntry st1 a tms).exec_log.current_epoch = st1.exec_log.current_epoch ∧
    (appendAgentEntry st1 a tms).exec_log.last_agent = st1.exec_log.last_agent ∧
    (appendAgentEntry st1 a tms).exec_log.epoch_by_agent = st1.exec_log.epoch_by_agent ∧
    (EventSeqInv st1 → EventSeqInv (appendAgentEntry st1 a tms)) := by
  unfold appendAgentEntry RunState.appendEvent
  refine ⟨?_, rfl, rfl, rfl, ?_⟩
  · simp [agentSeqOf_append, agentSeqOf]
  · intro hinv
    unfold EventSeqInv at hinv ⊢
    dsimp only
    simp [hinv, List.range_succ]

lemma appendAgent_then_tool_spec (st1 : RunState) (a : AgentEntryData) (tms : Nat)
    (k : String) (s : Nat) (tn : String) (tp : List (String × Val))
    (r : OrchestratorResult) (aS aD : Nat) (g : Glob) :
    agentSeqOf (logToolExecution k s tn tp r aS aD none none none
        (appendAgentEntry st1 a tms) g).2.1.exec_log.entries
      = agentSeqOf st1.exec_log.entries ++ [(a.agent_key, a.epoch)] ∧
    (logToolExecution k s tn tp r aS aD none none none
        (appendAgentEntry st1 a tms) g).2.1.exec_log.current_epoch
      = st1.exec_log.current_epoch ∧
    (logToolExecution k s tn tp r aS aD none none none
        (appendAgentEntry st1 a tms) g).2.1.exec_log.last_agent
      = st1.exec_log.last_agent ∧
    (logToolExecution k s tn tp r aS aD none none none
        (appendAgentEntry st1 a tms) g).2.1.exec_log.epoch_by_agent
      = st1.exec_log.epoch_by_agent ∧
    (EventSeqInv st1 → EventSeqInv (logToolExecution k s tn tp r aS aD none none none
        (appendAgentEntry st1 a tms) g).2.1) := by
  unfold logToolExecution appendAgentEntry RunState.appendEvent
  dsimp only
  refine ⟨?_, rfl, rfl, rfl, ?_⟩
  · simp [agentSeqOf_append, agentSeqOf]
  · intro hinv
    unfold EventSeqInv at hinv ⊢
    dsimp only
    simp [hinv, List.range_succ, List.range_add]

lemma appendEvent_eventSeqInv (st : RunState) (ty : String) (p : LogEntry)
    (tms : Nat) : EventSeqInv st → EventSeqInv (st.appendEvent ty p tms) := by
  intro hinv
  unfold EventSeqInv at hinv ⊢
  unfold RunState.appendEvent
  dsimp only
  simp [hinv, List.range_succ]

lemma schedDelta_eventSeqInv {cur : String} {stepN : Nat} {st st2 : RunState}
    (h : SchedDelta cur stepN st st2) : EventSeqInv st → EventSeqInv st2 := by
  intro hinv
  obtain ⟨_, _, _, _, _, evs, hev, hn, hs⟩ := h
  unfold EventSeqInv at hinv ⊢
  rw [hev, hn, List.map_append, hinv]
  exact range_append_seqFrom evs st.next_seq hs

lemma runTasks_status (env : Env) (sub : SubRunner) (getCfg : String → RunConfig)
    (cfg : RunConfig) (agentKey : String) (stepIdx : Nat) (groupId : String) :
    ∀ (tasks : List TaskGroupTask) (idx : Nat) (tl : List TaskLogEntry)
      (rt : List Val) (st : RunState) (g : Glob),
      (runTasks env sub getCfg cfg agentKey stepIdx groupId tasks idx tl rt
        st g).1.status = "ok" ∨
      (runTasks env sub getCfg cfg agentKey stepIdx groupId tasks idx tl rt
        st g).1.status = "error" := by
  intro tasks
  induction tasks with
  | nil => intro idx tl rt st g; left; rfl
  | cons task rest ih =>
      intro idx tl rt st g
      simp only [runTasks]
      rcases hrta : runTaskAttempts env sub getCfg cfg agentKey stepIdx groupId task
          (pyOrStr task.taskId (toString idx)) (max task.retryPolicy.attempts 1) 1
          [] none st g with ⟨attempts, success, lastError, res, st1, g1⟩
      dsimp only
      cases success with
      | true => simpa using ih (idx + 1) _ _ st1 g1
      | false => right; rfl

lemma handleTaskGroup_status (env : Env) (sub : SubRunner)
    (getCfg : String → RunConfig) (gid : Option String)
    (tasks : List TaskGroupTask) (cfg : RunConfig) (agentKey : String)
    (stepIdx : Nat) (st : RunState) (g : Glob) :
    (handleTaskGroup env sub getCfg gid tasks cfg agentKey stepIdx st g).1.status = "ok" ∨
    (handleTaskGroup env sub getCfg gid tasks cfg agentKey stepIdx st g).1.status = "error" := by
  unfold handleTaskGroup
  rcases gid with _ | s
  · dsimp only
    split
    · right; rfl
    · exact runTasks_status env sub getCfg cfg agentKey stepIdx _ tasks 0 [] [] st _
  · dsimp only
    by_cases hs : s = ""
    · rw [if_pos hs]
      split
      · right; rfl
      · exact runTasks_status env sub getCfg cfg agentKey stepIdx _ tasks 0 [] [] st _
    · rw [if_neg hs]
      split
      · right; rfl
      · exact runTasks_status env sub getCfg cfg agentKey stepIdx _ tasks 0 [] [] st _

lemma rStatusOfStr_ok_or_error {s : String} (h : s = "ok" ∨ s = "error") :
    rStatusOfStr s ≠ .notImplemented := by
  rcases h with h | h <;> subst h <;> decide

lemma runStepCore_master (env : Env) (sub : SubRunner) (getCfg : String → RunConfig)
    (userMessage : String) (step : Nat) (cur : String) (cfg : RunConfig)
    (decision : AgentDecision) (fullOutputs : List (String × ToolRec))
    (stepStarted actionStarted actionPerf : Nat) (st1 : RunState) (g2 : Glob) :
    agentSeqOf (runStepCore env sub getCfg userMessage step cur cfg decision
        fullOutputs stepStarted actionStarted actionPerf st1 g2).2.1.exec_log.entries
      = agentSeqOf st1.exec_log.entries ++ [(cur, st1.exec_log.current_epoch)] ∧
    (runStepCore env sub getCfg userMessage step cur cfg decision
        fullOutputs stepStarted actionStarted actionPerf st1 g2).2.1.exec_log.current_epoch
      = st1.exec_log.current_epoch ∧
    (runStepCore env sub getCfg userMessage step cur cfg decision
        fullOutputs stepStarted actionStarted actionPerf st1 g2).2.1.exec_log.last_agent
      = st1.exec_log.last_agent ∧
    (EventSeqInv st1 → EventSeqInv (runStepCore env sub getCfg userMessage step cur cfg
        decision fullOutputs stepStarted actionStarted actionPerf st1 g2).2.1) ∧
    (∀ f, (runStepCore env sub getCfg userMessage step cur cfg decision
        fullOutputs stepStarted actionStarted actionPerf st1 g2).1 = .finish f →
      f.status ≠ .notImplemented ∧
      (f.status = .ok →
        (cfg.allow_respond = true ∧ f.action_type = none) ∨
        (cfg.allow_task_respond = true ∧ f.action_type = some "TASK_RESPOND"))) := by
  obtain ⟨reas, details⟩ := decision
  cases details with
  | respond payload =>
      unfold runStepCore
      dsimp only [decisionToInstruction]
      refine ⟨?_, rfl, rfl, ?_, ?_⟩
      · exact (appendAgentEntry_spec st1 _ _).1
      · intro hinv
        exact (appendAgentEntry_spec st1 _ _).2.2.2.2 hinv
      · intro f hf
        injection hf with hf1
        subst hf1
        unfold executeInstruction
        dsimp only
        cases hr : cfg.allow_respond with
        | false =>
            simp only [hr, Bool.not_false, if_pos]
            exact ⟨fun h => RStatus.noConfusion h, fun h => RStatus.noConfusion h⟩
        | true =>
            simp only [hr, Bool.not_true, Bool.false_eq_true, if_false]
            exact ⟨fun h => RStatus.noConfusion h, fun _ => Or.inl ⟨by trivial, by trivial⟩⟩
  | taskRespond payload =>
      unfold runStepCore
      dsimp only [decisionToInstruction]
      refine ⟨?_, rfl, rfl, ?_, ?_⟩
      · exact (appendAgentEntry_spec st1 _ _).1
      · intro hinv
        exact (appendAgentEntry_spec st1 _ _).2.2.2.2 hinv
      · intro f hf
        injection hf with hf1
        subst hf1
        unfold executeInstruction
        dsimp only
        cases hr : cfg.allow_task_respond with
        | false =>
            simp only [hr, Bool.not_false, if_pos]
            exact ⟨fun h => RStatus.noConfusion h, fun h => RStatus.noConfusion h⟩
        | true =>
            simp only [hr, Bool.not_true, Bool.false_eq_true, if_false]
            exact ⟨fun h => RStatus.noConfusion h, fun _ => Or.inr ⟨by trivial, by trivial⟩⟩
  | useTool toolName toolParams =>
      unfold runStepCore
      dsimp only [decisionToInstruction]
      refine ⟨?_, rfl, rfl, ?_, ?_⟩
      · exact (appendAgent_then_tool_spec st1 _ _ _ _ _ _ _ _ _ _).1
      · intro hinv
        exact (appendAgent_then_tool_spec st1 _ _ _ _ _ _ _ _ _ _).2.2.2.2 hinv
      · intro f hf
        exact StepRes.noConfusion hf
  | routeToAgent target ctx =>
      unfold runStepCore
      dsimp only [decisionToInstruction]
      refine ⟨?_, rfl, rfl, ?_, ?_⟩
      · exact (appendAgentEntry_spec st1 _ _).1
      · intro hinv
        exact (appendAgentEntry_spec st1 _ _).2.2.2.2 hinv
      · intro f hf
        exact StepRes.noConfusion hf
  | taskGroup gid tasks =>
      unfold runStepCore
      dsimp only [decisionToInstruction]
      have hsd := handleTaskGroup_schedDelta env sub getCfg gid tasks cfg cur step st1 g2
      have hoc := handleTaskGroup_status env sub getCfg gid tasks cfg cur step st1 g2
      rcases hH : handleTaskGroup env sub getCfg gid tasks cfg cur step st1 g2
        with ⟨oc, stx, gx⟩
      rw [hH] at hsd hoc
      dsimp only at hsd hoc
      obtain ⟨⟨newE, hE, hC⟩, hep, hag, hla, hpr, evs, hev, hn, hs⟩ := hsd
      dsimp only
      refine ⟨?_, ?_, ?_, ?_, ?_⟩
      · split
        all_goals
          dsimp only [appendAgentEntry, RunState.appendEvent]
          rw [hE, agentSeqOf_append, agentSeqOf_append, agentSeqOf_append,
            agentSeqOf_children_nil hC]
          simp [agentSeqOf, hep]
      · split <;> (dsimp only; exact hep)
      · split <;> (dsimp only; exact hla)
      · intro hinv
        have hstx : EventSeqInv stx :=
          schedDelta_eventSeqInv ⟨⟨newE, hE, hC⟩, hep, hag, hla, hpr, evs, hev, hn, hs⟩ hinv
        split
        all_goals
          exact appendEvent_eventSeqInv _ _ _ _
            ((appendAgentEntry_spec stx _ stepStarted).2.2.2.2 hstx)
      · split
        · rename_i hne
          intro f hf
          injection hf with hf1
          subst hf1
          refine ⟨?_, ?_⟩
          · exact rStatusOfStr_ok_or_error hoc
          · intro hok
            exact absurd hok hne
        · intro f hf
          exact StepRes.noConfusion hf

lemma runStep_master (env : Env) (sub : SubRunner) (getCfg : String → RunConfig)
    (userMessage : String) (step : Nat) (cur : String) (st : RunState) (g : Glob) :
    agentSeqOf (runStep env sub getCfg userMessage step cur st g).2.1.exec_log.entries
      = agentSeqOf st.exec_log.entries ++ [(cur, epochAfter st.exec_log cur)] ∧
    (runStep env sub getCfg userMessage step cur st g).2.1.exec_log.current_epoch
      = epochAfter st.exec_log cur ∧
    (runStep env sub getCfg userMessage step cur st g).2.1.exec_log.last_agent
      = some cur ∧
    (EventSeqInv st → EventSeqInv (runStep env sub getCfg userMessage step cur
        st g).2.1) ∧
    (∀ f, (runStep env sub getCfg userMessage step cur st g).1 = .finish f →
      f.status ≠ .notImplemented ∧
      (f.status = .ok →
        ((getCfg cur).allow_respond = true ∧ f.action_type = none) ∨
        ((getCfg cur).allow_task_respond = true ∧
          f.action_type = some "TASK_RESPOND"))) := by
  unfold runStep
  dsimp only
  exact runStepCore_master env sub getCfg userMessage step cur (getCfg cur) _ _ _ _ _ _ _

/-- One admissible step of the epoch chain: same agent keeps the epoch, a
different agent increments it by exactly one. -/
def chainStepB (p q : String × Nat) : Bool :=
  if p.1 = q.1 then q.2 == p.2 else q.2 == p.2 + 1

/-- Every consecutive pair starting from `p` is an admissible chain step. -/
def chainFrom : String × Nat → List (String × Nat) → Bool
  | _, [] => true
  | p, q :: rest => chainStepB p q && chainFrom q rest

/-- The epoch-chain predicate of the spec: the first agent entry has epoch 0,
consecutive entries of the same agent share the epoch, and a transition to a
different agent increments the epoch by exactly one. -/
def chainGood : List (String × Nat) → Bool
  | [] => true
  | p :: rest => (p.2 == 0) && chainFrom p rest

lemma getLast?_cons_eq_some {α : Type} (p : α) (rest : List α) :
    (p :: rest).getLast? = some (rest.getLast?.getD p) := by
  induction rest generalizing p with
  | nil => rfl
  | cons q rs ih =>
      rw [List.getLast?_cons_cons, ih q]
      simp

lemma chainFrom_snoc (x : String × Nat) :
    ∀ (l : List (String × Nat)) (p : String × Nat),
      chainFrom p l = true →
      chainStepB (l.getLast?.getD p) x = true →
      chainFrom p (l ++ [x]) = true := by
  intro l
  induction l with
  | nil =>
      intro p _ hstep
      simpa [chainFrom] using hstep
  | cons q rest ih =>
      intro p h hstep
      rw [List.cons_append]
      simp only [chainFrom, Bool.and_eq_true] at h ⊢
      refine ⟨h.1, ih q h.2 ?_⟩
      rw [getLast?_cons_eq_some] at hstep
      simpa using hstep

lemma chainGood_snoc {l : List (String × Nat)} {x : String × Nat}
    (h : chainGood l = true)
    (hstep : match l.getLast? with
             | none => x.2 = 0
             | some p => chainStepB p x = true) :
    chainGood (l ++ [x]) = true := by
  cases l with
  | nil =>
      simp only [List.getLast?_nil] at hstep
      simp [chainGood, chainFrom, hstep]
  | cons p rest =>
      simp only [chainGood, Bool.and_eq_true] at h
      rw [List.cons_append]
      simp only [chainGood, Bool.and_eq_true]
      refine ⟨h.1, chainFrom_snoc x rest p h.2 ?_⟩
      rw [getLast?_cons_eq_some] at hstep
      exact hstep

/-- The epoch bookkeeping (`last_agent`, `current_epoch`) agrees with the last
agent entry of the log. -/
def lastAgrees (st : RunState) : Prop :=
  (agentSeqOf st.exec_log.entries).getLast? =
    st.exec_log.last_agent.map (fun k => (k, st.exec_log.current_epoch))

lemma epochAfter_eq (l : ExecLog) (k : String) :
    epochAfter l k = match l.last_agent with
      | none => 0
      | some la => if la = k then l.current_epoch else l.current_epoch + 1 := rfl

lemma stepLoop_chain (env : Env) (sub : SubRunner) (getCfg : String → RunConfig)
    (userMessage : String) :
    ∀ (fuel step : Nat) (cur : String) (st : RunState) (g : Glob),
      chainGood (agentSeqOf st.exec_log.entries) = true →
      lastAgrees st →
      chainGood (agentSeqOf (stepLoop env sub getCfg userMessage fuel step cur
        st g).1.execution_log) = true := by
  intro fuel
  induction fuel with
  | zero => intro step cur st g hch hla; exact hch
  | succ n ih =>
      intro step cur st g hch hla
      obtain ⟨h1, h2, h3, _, _⟩ := runStep_master env sub getCfg userMessage step cur st g
      have hgood : chainGood (agentSeqOf (runStep env sub getCfg userMessage step cur
          st g).2.1.exec_log.entries) = true := by
        rw [h1]
        refine chainGood_snoc hch ?_
        rw [lastAgrees] at hla
        rw [hla]
        cases hl : st.exec_log.last_agent with
        | none =>
            show (cur, epochAfter st.exec_log cur).2 = 0
            rw [epochAfter_eq, hl]
        | some la =>
            show chainStepB (la, st.exec_log.current_epoch)
              (cur, epochAfter st.exec_log cur) = true
            rw [epochAfter_eq, hl]
            unfold chainStepB
            dsimp only
            by_cases hk : la = cur
            · simp [hk]
            · simp [hk]
      have hagrees : lastAgrees (runStep env sub getCfg userMessage step cur st g).2.1 := by
        rw [lastAgrees, h1, h2, h3]
        simp
      simp only [stepLoop]
      rcases hrs : runStep env sub getCfg userMessage step cur st g with ⟨sres, st1, g1⟩
      rw [hrs] at hgood hagrees
      dsimp only at hgood hagrees ⊢
      cases sres with
      | finish f => exact hgood
      | next nxt => exact ih (step + 1) nxt st1 g1 hgood hagrees

/-- C3: in every run's execution log, the agent entries form a good epoch
chain: the first agent entry has epoch 0, any two consecutive agent entries
with the same `agent_key` have equal epochs, and any two consecutive agent
entries with different `agent_keys` have epochs differing by exactly one
(`start_agent_epoch` increments the counter exactly on a transition to a
different agent, including re-entry). -/
theorem agent_epoch_chain (env : Env) (dfuel : Nat) (getCfg : String → RunConfig)
    (defaultKey userMessage : String) (maxSteps : Nat) (g : Glob) :
    chainGood (agentSeqOf (runLoop env dfuel getCfg defaultKey userMessage
      maxSteps g).1.execution_log) = true := by
  unfold runLoop runLoopBody
  dsimp only
  exact stepLoop_chain env (subRunnerOf env dfuel) getCfg userMessage maxSteps 0
    defaultKey {} _ rfl rfl

lemma stepLoop_status (env : Env) (sub : SubRunner) (getCfg : String → RunConfig)
    (userMessage : String) :
    ∀ (fuel step : Nat) (cur : String) (st : RunState) (g : Glob),
      (stepLoop env sub getCfg userMessage fuel step cur
        st g).1.final.status ≠ .notImplemented := by
  intro fuel
  induction fuel with
  | zero =>
      intro step cur st g
      exact fun h => RStatus.noConfusion h
  | succ n ih =>
      intro step cur st g
      obtain ⟨_, _, _, _, h5⟩ := runStep_master env sub getCfg userMessage step cur st g
      simp only [stepLoop]
      rcases hrs : runStep env sub getCfg userMessage step cur st g with ⟨sres, st1, g1⟩
      rw [hrs] at h5
      dsimp only at h5 ⊢
      cases sres with
      | finish f => exact (h5 f rfl).1
      | next nxt => exact ih (step + 1) nxt st1 g1

/-- C2: every run ends with a final block whose status is one of the literals
`ok`, `retry`, `error` — never `not_implemented`.  (The original claim that
the status is always `ok` or `error` fails: see
`run_final_status_retry_counterexample`.) -/
theorem run_final_status_classified (env : Env) (dfuel : Nat)
    (getCfg : String → RunConfig) (defaultKey userMessage : String)
    (maxSteps : Nat) (g : Glob) :
    (runLoop env dfuel getCfg defaultKey userMessage maxSteps g).1.final.status = .ok ∨
    (runLoop env dfuel getCfg defaultKey userMessage maxSteps g).1.final.status = .retry ∨
    (runLoop env dfuel getCfg defaultKey userMessage maxSteps g).1.final.status = .error := by
  have h : (runLoop env dfuel getCfg defaultKey userMessage maxSteps
      g).1.final.status ≠ .notImplemented := by
    unfold runLoop runLoopBody
    dsimp only
    exact stepLoop_status env (subRunnerOf env dfuel) getCfg userMessage maxSteps 0
      defaultKey {} _
  rcases hs : (runLoop env dfuel getCfg defaultKey userMessage maxSteps
      g).1.final.status with _ | _ | _ | _
  · left; rfl
  · exact absurd hs h
  · right; left; rfl
  · right; right; rfl

/-- A config whose agent may not RESPOND. -/
def noRespCfg : RunConfig :=
  { current_agent := "solo", allow_respond := false }

/-- An oracle that always chooses RESPOND. -/
def decideResp : Nat → AgentDecision := fun _ =>
  { action_reasoning := "answer", action_details := .respond (.vstr "hi") }

/-- Environment for the RESPOND-rejected run. -/
def envResp : Env := { providers := testProviders, decide := decideResp }

/-- C2 counterexample: a run whose final block has status `retry` — the loop
returns the rejected RESPOND result as the final block, so the final status
is neither `ok` nor `error`. -/
theorem run_final_status_retry_counterexample :
    (runLoop envResp 0 (fun _ => noRespCfg) "solo" "hello" 3
      { clk := clk0 }).1.final.status = .retry := by
  rfl

/-- A decision that never terminates the loop: USE_TOOL keeps the current
agent, ROUTE_TO_AGENT hands off and continues. -/
def NonTerminalDec (d : AgentDecision) : Prop :=
  match d.action_details with
  | .useTool _ _ => True
  | .routeToAgent _ _ => True
  | _ => False

lemma runStepCore_nonterminal (env : Env) (sub : SubRunner)
    (getCfg : String → RunConfig) (userMessage : String) (step : Nat)
    (cur : String) (cfg : RunConfig) (decision : AgentDecision)
    (fullOutputs : List (String × ToolRec)) (stepStarted actionStarted actionPerf : Nat)
    (st1 : RunState) (g2 : Glob) (h : NonTerminalDec decision) :
    ∃ nxt, (runStepCore env sub getCfg userMessage step cur cfg decision
      fullOutputs stepStarted actionStarted actionPerf st1 g2).1 = .next nxt := by
  obtain ⟨reas, details⟩ := decision
  cases details with
  | useTool toolName toolParams =>
      unfold runStepCore
      dsimp only [decisionToInstruction]
      exact ⟨cur, rfl⟩
  | routeToAgent target ctx =>
      unfold runStepCore
      dsimp only [decisionToInstruction]
      exact ⟨target, rfl⟩
  | respond payload => exact h.elim
  | taskRespond payload => exact h.elim
  | taskGroup gid tasks => exact h.elim

lemma runStep_nonterminal (env : Env) (sub : SubRunner) (getCfg : String → RunConfig)
    (userMessage : String) (step : Nat) (cur : String) (st : RunState) (g : Glob)
    (h : NonTerminalDec (env.decide g.decideIdx)) :
    ∃ nxt, (runStep env sub getCfg userMessage step cur st g).1 = .next nxt := by
  unfold runStep
  dsimp only
  exact runStepCore_nonterminal env sub getCfg userMessage step cur (getCfg cur)
    _ _ _ _ _ _ _ h

lemma stepLoop_guardrail (env : Env) (sub : SubRunner) (getCfg : String → RunConfig)
    (userMessage : String) (hdec : ∀ i, NonTerminalDec (env.decide i)) :
    ∀ (fuel step : Nat) (cur : String) (st : RunState) (g : Glob),
      (stepLoop env sub getCfg userMessage fuel step cur st g).1.final
        = guardrailFinal := by
  intro fuel
  induction fuel with
  | zero => intro step cur st g; rfl
  | succ n ih =>
      intro step cur st g
      obtain ⟨nxt, hnxt⟩ := runStep_nonterminal env sub getCfg userMessage step cur st g
        (hdec g.decideIdx)
      simp only [stepLoop]
      rcases hrs : runStep env sub getCfg userMessage step cur st g with ⟨sres, st1, g1⟩
      rw [hrs] at hnxt
      dsimp only at hnxt ⊢
      cases sres with
      | finish f => exact StepRes.noConfusion hnxt
      | next nxt2 => exact ih (step + 1) nxt2 st1 g1

lemma stepLoop_agent_count (env : Env) (sub : SubRunner) (getCfg : String → RunConfig)
    (userMessage : String) :
    ∀ (fuel step : Nat) (cur : String) (st : RunState) (g : Glob),
      (agentSeqOf (stepLoop env sub getCfg userMessage fuel step cur
          st g).1.execution_log).length ≤
        (agentSeqOf st.exec_log.entries).length + fuel := by
  intro fuel
  induction fuel with
  | zero => intro step cur st g; simp [stepLoop, mkRunOut]
  | succ n ih =>
      intro step cur st g
      obtain ⟨h1, _, _, _, _⟩ := runStep_master env sub getCfg userMessage step cur st g
      simp only [stepLoop]
      rcases hrs : runStep env sub getCfg userMessage step cur st g with ⟨sres, st1, g1⟩
      rw [hrs] at h1
      dsimp only at h1 ⊢
      cases sres with
      | finish f =>
          have : (agentSeqOf st1.exec_log.entries).length
              = (agentSeqOf st.exec_log.entries).length + 1 := by
            rw [h1]; simp
          simp only [mkRunOut]
          omega
      | next nxt =>
          dsimp only
          have hb := ih (step + 1) nxt st1 g1
          have : (agentSeqOf st1.exec_log.entries).length
              = (agentSeqOf st.exec_log.entries).length + 1 := by
            rw [h1]; simp
          omega

/-- Whether one of the first `fuel` loop iterations produces a terminal
outcome (the iteration returns a final block instead of a next agent): a
RESPOND, a TASK_RESPOND, or a TASK_GROUP whose group result is not ok.
USE_TOOL, ROUTE_TO_AGENT and successful TASK_GROUP steps all continue. -/
def finishedEarly (env : Env) (sub : SubRunner) (getCfg : String → RunConfig)
    (userMessage : String) : Nat → Nat → String → RunState → Glob → Bool
  | 0, _, _, _, _ => false
  | fuel + 1, step, cur, st, g =>
      match runStep env sub getCfg userMessage step cur st g with
      | (.finish _, _, _) => true
      | (.next nxt, st1, g1) =>
          finishedEarly env sub getCfg userMessage fuel (step + 1) nxt st1 g1

lemma stepLoop_no_finish_guardrail (env : Env) (sub : SubRunner)
    (getCfg : String → RunConfig) (userMessage : String) :
    ∀ (fuel step : Nat) (cur : String) (st : RunState) (g : Glob),
      finishedEarly env sub getCfg userMessage fuel step cur st g = false →
      (stepLoop env sub getCfg userMessage fuel step cur st g).1.final
        = guardrailFinal := by
  intro fuel
  induction fuel with
  | zero => intro step cur st g _; rfl
  | succ n ih =>
      intro step cur st g h
      simp only [finishedEarly] at h
      simp only [stepLoop]
      rcases hrs : runStep env sub getCfg userMessage step cur st g with ⟨sres, st1, g1⟩
      rw [hrs] at h
      cases sres with
      | finish f => exact Bool.noConfusion h
      | next nxt => exact ih (step + 1) nxt st1 g1 h

/-- C7: a run with `max_steps = n` performs at most `n` loop iterations (each
iteration appends exactly one agent entry, so the log holds at most `n` agent
entries) and always terminates; and when none of the first `n` iterations
produced a terminal outcome (`finishedEarly = false` — USE_TOOL,
ROUTE_TO_AGENT and successful TASK_GROUP steps all continue), the returned
final block is exactly `{status: error, error: max_steps_exceeded}`
(`guardrailFinal`). -/
theorem run_max_steps_guardrail (env : Env) (dfuel : Nat)
    (getCfg : String → RunConfig) (defaultKey userMessage : String)
    (maxSteps : Nat) (g : Glob) :
    (agentSeqOf (runLoop env dfuel getCfg defaultKey userMessage maxSteps
        g).1.execution_log).length ≤ maxSteps ∧
    (finishedEarly env (subRunnerOf env dfuel) getCfg userMessage maxSteps 0
        defaultKey {} { g with clk := g.clk.read.2.read.2 } = false →
      (runLoop env dfuel getCfg defaultKey userMessage maxSteps g).1.final
        = guardrailFinal) := by
  constructor
  · have h := stepLoop_agent_count env (subRunnerOf env dfuel) getCfg userMessage
      maxSteps 0 defaultKey {} ({ g with clk := (g.clk.read.2.read.2) })
    unfold runLoop runLoopBody
    dsimp only
    simpa [agentSeqOf] using h
  · intro hne
    unfold runLoop runLoopBody
    dsimp only
    exact stepLoop_no_finish_guardrail env (subRunnerOf env dfuel) getCfg userMessage
      maxSteps 0 defaultKey {} _ hne

/-- A monotone time source (real wall clocks and perf counters). -/
def ClkMono (c : Clk) : Prop := ∀ i j, i ≤ j → c.ts i ≤ c.ts j

lemma executeInstruction_clk (env : Env) (instr : Instruction)
    (cfg : Option RunConfig) (clk : Clk) :
    (executeInstruction env instr cfg clk).2.2.ts = clk.ts ∧
    clk.idx ≤ (executeInstruction env instr cfg clk).2.2.idx := by
  rcases instr with ⟨reas, act⟩
  unfold executeInstruction
  cases act <;> dsimp only <;>
    (repeat first
      | exact ⟨rfl, Nat.le_refl _⟩
      | (refine ⟨rfl, ?_⟩; dsimp only [Clk.read]; omega)
      | split)

/-- A decision that is not a TASK_GROUP (its scheduler emits child tool events
with earlier timestamps after later ones). -/
def NonTGDec (d : AgentDecision) : Prop :=
  match d.action_details with
  | .taskGroup _ _ => False
  | _ => True

lemma mem_of_getLast? {α : Type} : ∀ {l : List α} {a : α}, l.getLast? = some a → a ∈ l := by
  intro l
  induction l with
  | nil => intro a h; exact absurd h (by simp)
  | cons q rest ih =>
      intro a h
      rw [getLast?_cons_eq_some] at h
      injection h with h
      cases hr : rest.getLast? with
      | none =>
          rw [hr] at h
          simp at h
          subst h
          exact List.mem_cons_self q rest
      | some b =>
          rw [hr] at h
          simp at h
          subst h
          exact List.mem_cons_of_mem q (ih hr)

lemma chain_le_snoc {l : List StepEvent} {ev : StepEvent}
    (hch : List.Chain' (fun a b => a.t ≤ b.t) l)
    (hb : ∀ e ∈ l, e.t ≤ ev.t) :
    List.Chain' (fun a b => a.t ≤ b.t) (l ++ [ev]) := by
  rw [List.chain'_append]
  refine ⟨hch, List.chain'_singleton _, ?_⟩
  intro x hx y hy
  simp only [List.head?_cons, Option.mem_def, Option.some.injEq] at hy
  subst hy
  exact hb x (mem_of_getLast? (Option.mem_def.mp hx))

lemma runStepCore_tmono (env : Env) (sub : SubRunner) (getCfg : String → RunConfig)
    (userMessage : String) (step : Nat) (cur : String) (cfg : RunConfig)
    (decision : AgentDecision) (fullOutputs : List (String × ToolRec))
    (stepStarted actionStarted actionPerf : Nat) (st1 : RunState) (g2 : Glob)
    (hd : NonTGDec decision) (hm : ClkMono g2.clk)
    (hss : stepStarted ≤ actionStarted)
    (has : actionStarted ≤ g2.clk.ts g2.clk.idx)
    (hch : List.Chain' (fun a b => a.t ≤ b.t) st1.step_events)
    (hb : ∀ e ∈ st1.step_events, e.t ≤ stepStarted) :
    List.Chain' (fun a b => a.t ≤ b.t)
      (runStepCore env sub getCfg userMessage step cur cfg decision fullOutputs
        stepStarted actionStarted actionPerf st1 g2).2.1.step_events ∧
    (∀ e ∈ (runStepCore env sub getCfg userMessage step cur cfg decision fullOutputs
        stepStarted actionStarted actionPerf st1 g2).2.1.step_events,
      e.t ≤ (runStepCore env sub getCfg userMessage step cur cfg decision fullOutputs
          stepStarted actionStarted actionPerf st1 g2).2.2.clk.ts
        (runStepCore env sub getCfg userMessage step cur cfg decision fullOutputs
          stepStarted actionStarted actionPerf st1 g2).2.2.clk.idx) ∧
    (runStepCore env sub getCfg userMessage step cur cfg decision fullOutputs
        stepStarted actionStarted actionPerf st1 g2).2.2.clk.ts = g2.clk.ts := by
  obtain ⟨reas, details⟩ := decision
  cases details with
  | taskGroup gid tasks => exact hd.elim
  | respond payload =>
      unfold runStepCore
      dsimp only [decisionToInstruction, appendAgentEntry, RunState.appendEvent, Clk.read]
      have hec := executeInstruction_clk env
        { reasoning := reas, action := Action.respond (liftPayload payload) }
        (some cfg) g2.clk
      have hid := hec.2
      refine ⟨chain_le_snoc hch hb, ?_, hec.1⟩
      intro e he
      rw [hec.1]
      rcases List.mem_append.mp he with h | h
      · exact le_trans (hb e h) (le_trans hss (le_trans has (hm _ _ (Nat.le_succ_of_le hid))))
      · simp only [List.mem_singleton] at h
        subst h
        exact le_trans hss (le_trans has (hm _ _ (Nat.le_succ_of_le hid)))
  | taskRespond payload =>
      unfold runStepCore
      dsimp only [decisionToInstruction, appendAgentEntry, RunState.appendEvent, Clk.read]
      have hec := executeInstruction_clk env
        { reasoning := reas, action := Action.taskRespond (liftPayload payload) }
        (some cfg) g2.clk
      have hid := hec.2
      refine ⟨chain_le_snoc hch hb, ?_, hec.1⟩
      intro e he
      rw [hec.1]
      rcases List.mem_append.mp he with h | h
      · exact le_trans (hb e h) (le_trans hss (le_trans has (hm _ _ (Nat.le_succ_of_le hid))))
      · simp only [List.mem_singleton] at h
        subst h
        exact le_trans hss (le_trans has (hm _ _ (Nat.le_succ_of_le hid)))
  | routeToAgent target ctx =>
      unfold runStepCore
      dsimp only [decisionToInstruction, appendAgentEntry, RunState.appendEvent, Clk.read]
      have hec := executeInstruction_clk env
        { reasoning := reas, action := Action.routeToAgent target ctx }
        (some cfg) g2.clk
      have hid := hec.2
      refine ⟨chain_le_snoc hch hb, ?_, hec.1⟩
      intro e he
      rw [hec.1]
      rcases List.mem_append.mp he with h | h
      · exact le_trans (hb e h) (le_trans hss (le_trans has (hm _ _ (Nat.le_succ_of_le hid))))
      · simp only [List.mem_singleton] at h
        subst h
        exact le_trans hss (le_trans has (hm _ _ (Nat.le_succ_of_le hid)))
  | useTool toolName toolParams =>
      unfold runStepCore
      dsimp only [decisionToInstruction, appendAgentEntry, RunState.appendEvent,
        logToolExecution, Clk.read]
      have hec := executeInstruction_clk env
        { reasoning := reas, action := Action.useTool toolName toolParams }
        (some cfg) g2.clk
      have hid := hec.2
      have hbA : ∀ e ∈ st1.step_events ++
          [{ seq := st1.next_seq, t := stepStarted, entryType := "agent",
             payload := LogEntry.agent
               { step := step, epoch := st1.exec_log.current_epoch, agent_key := cur,
                 input_preview := pyTruncate userMessage 80,
                 decision := ⟨reas, DecisionDetails.useTool toolName toolParams⟩,
                 prompt_tool_output_ids := fullOutputs.map Prod.fst,
                 route_context := none } }],
          e.t ≤ actionStarted := by
        intro e he
        rcases List.mem_append.mp he with h | h
        · exact le_trans (hb e h) hss
        · simp only [List.mem_singleton] at h
          subst h
          exact hss
      refine ⟨?_, ?_, hec.1⟩
      · exact chain_le_snoc (chain_le_snoc hch hb) hbA
      · intro e he
        rw [hec.1]
        rcases List.mem_append.mp he with h | h
        · exact le_trans (hbA e h) (le_trans has (hm _ _ (Nat.le_succ_of_le hid)))
        · simp only [List.mem_singleton] at h
          subst h
          exact le_trans has (hm _ _ (Nat.le_succ_of_le hid))

lemma runStep_tmono (env : Env) (sub : SubRunner) (getCfg : String → RunConfig)
    (userMessage : String) (step : Nat) (cur : String) (st : RunState) (g : Glob)
    (hd : NonTGDec (env.decide g.decideIdx)) (hm : ClkMono g.clk)
    (hch : List.Chain' (fun a b => a.t ≤ b.t) st.step_events)
    (hb : ∀ e ∈ st.step_events, e.t ≤ g.clk.ts g.clk.idx) :
    List.Chain' (fun a b => a.t ≤ b.t)
      (runStep env sub getCfg userMessage step cur st g).2.1.step_events ∧
    (∀ e ∈ (runStep env sub getCfg userMessage step cur st g).2.1.step_events,
      e.t ≤ (runStep env sub getCfg userMessage step cur st g).2.2.clk.ts
        (runStep env sub getCfg userMessage step cur st g).2.2.clk.idx) ∧
    (runStep env sub getCfg userMessage step cur st g).2.2.clk.ts = g.clk.ts := by
  unfold runStep
  dsimp only [Clk.read]
  exact runStepCore_tmono env sub getCfg userMessage step cur (getCfg cur) _ _ _ _ _ _ _
    hd hm (hm _ _ (by omega)) (hm _ _ (by first | omega | (dsimp only; omega))) hch hb

lemma stepLoop_tmono (env : Env) (sub : SubRunner) (getCfg : String → RunConfig)
    (userMessage : String) (hdec : ∀ i, NonTGDec (env.decide i)) :
    ∀ (fuel step : Nat) (cur : String) (st : RunState) (g : Glob),
      ClkMono g.clk →
      List.Chain' (fun a b => a.t ≤ b.t) st.step_events →
      (∀ e ∈ st.step_events, e.t ≤ g.clk.ts g.clk.idx) →
      List.Chain' (fun a b => a.t ≤ b.t)
        (stepLoop env sub getCfg userMessage fuel step cur st g).1.step_events := by
  intro fuel
  induction fuel with
  | zero => intro step cur st g _ hch _; exact hch
  | succ n ih =>
      intro step cur st g hm hch hb
      have ht := runStep_tmono env sub getCfg userMessage step cur st g
        (hdec g.decideIdx) hm hch hb
      simp only [stepLoop]
      rcases hrs : runStep env sub getCfg userMessage step cur st g with ⟨sres, st1, g1⟩
      rw [hrs] at ht
      dsimp only at ht ⊢
      obtain ⟨hch1, hb1, hts1⟩ := ht
      cases sres with
      | finish f => exact hch1
      | next nxt =>
          refine ih (step + 1) nxt st1 g1 ?_ hch1 hb1
          intro i j hij
          rw [hts1]
          exact hm i j hij

lemma eventSeqInv_range (st : RunState) (h : EventSeqInv st) :
    st.step_events.map StepEvent.seq = List.range st.step_events.length := by
  have hl : st.step_events.length = st.next_seq := by
    have h2 := congrArg List.length h
    simpa using h2
  rw [hl]
  exact h

lemma stepLoop_events_seq (env : Env) (sub : SubRunner) (getCfg : String → RunConfig)
    (userMessage : String) :
    ∀ (fuel step : Nat) (cur : String) (st : RunState) (g : Glob),
      EventSeqInv st →
      (stepLoop env sub getCfg userMessage fuel step cur st g).1.step_events.map
          StepEvent.seq
        = List.range (stepLoop env sub getCfg userMessage fuel step cur
            st g).1.step_events.length := by
  intro fuel
  induction fuel with
  | zero => intro step cur st g h; exact eventSeqInv_range st h
  | succ n ih =>
      intro step cur st g h
      obtain ⟨_, _, _, h4, _⟩ := runStep_master env sub getCfg userMessage step cur st g
      simp only [stepLoop]
      rcases hrs : runStep env sub getCfg userMessage step cur st g with ⟨sres, st1, g1⟩
      rw [hrs] at h4
      dsimp only at h4 ⊢
      cases sres with
      | finish f => exact eventSeqInv_range st1 (h4 h)
      | next nxt => exact ih (step + 1) nxt st1 g1 (h4 h)

/-- C8: in every run the `seq` values of the step events are the contiguous
integers `0, 1, 2, …` in list order; and under a monotone time source the `t`
values are monotone non-decreasing provided no step chose TASK_GROUP.  (For
TASK_GROUP steps `t` monotonicity fails: the scheduler first emits child tool
events carrying later timestamps and then the step's agent event carrying the
earlier step-start timestamp — see
`step_event_time_decrease_counterexample`.) -/
theorem step_event_stream_invariants (env : Env) (dfuel : Nat)
    (getCfg : String → RunConfig) (defaultKey userMessage : String)
    (maxSteps : Nat) (g : Glob) :
    ((runLoop env dfuel getCfg defaultKey userMessage maxSteps
          g).1.step_events.map StepEvent.seq
      = List.range (runLoop env dfuel getCfg defaultKey userMessage maxSteps
          g).1.step_events.length) ∧
    (ClkMono g.clk → (∀ i, NonTGDec (env.decide i)) →
      List.Chain' (fun a b => a.t ≤ b.t)
        (runLoop env dfuel getCfg defaultKey userMessage maxSteps
          g).1.step_events) := by
  constructor
  · unfold runLoop runLoopBody
    dsimp only
    exact stepLoop_events_seq env (subRunnerOf env dfuel) getCfg userMessage maxSteps 0
      defaultKey {} _ rfl
  · intro hm hdec
    unfold runLoop runLoopBody
    dsimp only [Clk.read]
    refine stepLoop_tmono env (subRunnerOf env dfuel) getCfg userMessage hdec maxSteps 0
      defaultKey {} _ hm List.chain'_nil ?_
    intro e he
    exact absurd he (List.not_mem_nil e)

/-- C8 counterexample: a run whose only step is a TASK_GROUP (scenario E4,
identity time source).  The event stream's `t` values are `[9, 14, 2, 7]` —
the child tool events (read later, t = 9 and 14) precede the step's agent
event (read first, t = 2), so `t` is not monotone even though the time source
is. -/
theorem step_event_time_decrease_counterexample :
    ClkMono clk0 ∧
    (runLoop envE4 0 (fun _ => primCfg) "primary" "go" 3
        { clk := clk0 }).1.step_events.map StepEvent.t = [9, 14, 2, 7] ∧
    ¬ List.Chain' (fun a b => a.t ≤ b.t)
      (runLoop envE4 0 (fun _ => primCfg) "primary" "go" 3
        { clk := clk0 }).1.step_events := by
  refine ⟨fun i j h => h, by rfl, ?_⟩
  intro hch
  have h2 : List.Chain' (fun a b : Nat => a ≤ b)
      ((runLoop envE4 0 (fun _ => primCfg) "primary" "go" 3
        { clk := clk0 }).1.step_events.map StepEvent.t) :=
    (List.chain'_map StepEvent.t).mpr hch
  rw [show (runLoop envE4 0 (fun _ => primCfg) "primary" "go" 3
      { clk := clk0 }).1.step_events.map StepEvent.t = [9, 14, 2, 7] from rfl] at h2
  obtain ⟨-, h3⟩ := List.chain'_cons.mp h2
  obtain ⟨hbad, -⟩ := List.chain'_cons.mp h3
  exact absurd hbad (by omega)

/-- C10: a ROUTE_TO_AGENT step always hands off: the loop continues with the
target agent and deposits the handoff context for it, regardless of the route
gate — when the target is not in `allowed_routes`, `execute_instruction`
returns status `retry` with `next_agent` unset, but the loop ignores that
result in the ROUTE_TO_AGENT branch, so the rejection does not prevent the
handoff. -/
theorem route_handoff_unconditional (env : Env) (sub : SubRunner)
    (getCfg : String → RunConfig) (userMessage : String) (step : Nat)
    (cur : String) (st : RunState) (g : Glob) (reas target : String)
    (ctx : List (String × Val))
    (hdec : env.decide g.decideIdx =
      { action_reasoning := reas, action_details := .routeToAgent target ctx }) :
    (runStep env sub getCfg userMessage step cur st g).1 = .next target ∧
    dGet (runStep env sub getCfg userMessage step cur
      st g).2.1.pending_route_context target = some ctx ∧
    (∀ clk : Clk, target ∉ (getCfg cur).allowed_routes →
      (executeInstruction env { reasoning := reas, action := .routeToAgent target ctx }
        (some (getCfg cur)) clk).1
        = { status := .retry,
            error := some ("Route to \x27" ++ target ++ "\x27 not permitted") }) := by
  unfold runStep runStepCore
  rw [hdec]
  dsimp only [decisionToInstruction]
  refine ⟨rfl, ?_, ?_⟩
  · exact dGet_dSet_self _ _ _
  · intro clk hnr
    unfold executeInstruction
    dsimp only
    rw [if_pos hnr]

/-- Environment whose oracle always routes to `other` with a context. -/
def envRoute : Env :=
  { providers := testProviders,
    decide := fun _ =>
      { action_reasoning := "go", action_details := .routeToAgent "other"
          [("k", .vstr "v")] } }

/-- Witness for `route_handoff_unconditional`: `solo` routes to `other`,
which is not among its (empty) allowed routes. -/
theorem route_handoff_unconditional_witness :
    (runStep envRoute (subRunnerOf envRoute 0) (fun _ => soloCfg) "m" 0 "solo"
      {} { clk := clk0 }).1 = .next "other" ∧
    dGet (runStep envRoute (subRunnerOf envRoute 0) (fun _ => soloCfg) "m" 0 "solo"
      {} { clk := clk0 }).2.1.pending_route_context "other" = some [("k", .vstr "v")] ∧
    (∀ clk : Clk, "other" ∉ soloCfg.allowed_routes →
      (executeInstruction envRoute
        { reasoning := "go", action := .routeToAgent "other" [("k", .vstr "v")] }
        (some soloCfg) clk).1
        = { status := .retry,
            error := some ("Route to \x27other\x27 not permitted") }) :=
  route_handoff_unconditional envRoute (subRunnerOf envRoute 0) (fun _ => soloCfg)
    "m" 0 "solo" {} { clk := clk0 } "go" "other" [("k", .vstr "v")] rfl

lemma executeInstruction_forbidden (env : Env) (reas toolName : String)
    (toolParams : List (String × Val)) (c : RunConfig) (tspec : ToolRuntimeSpec)
    (clk : Clk) (ht : toolName ∈ c.equipped_tools)
    (hm : dGet c.tools_map toolName = some tspec)
    (hf : forbiddenSystemKeys tspec.params_schema toolParams ≠ []) :
    executeInstruction env { reasoning := reas, action := .useTool toolName toolParams }
      (some c) clk
      = ({ status := .retry,
           error := some (sysParamsErrMsg
             (forbiddenSystemKeys tspec.params_schema toolParams)) }, [], clk) := by
  unfold executeInstruction
  dsimp only
  rw [if_neg (fun hn => hn ht), hm]
  dsimp only
  rw [if_pos hf]

/-- The last entry of the log, when it is a tool entry: its tool key and
status. -/
def lastToolOf (l : List LogEntry) : Option (String × RStatus) :=
  match l.getLast? with
  | some (.tool t) => some (t.tool_key, t.status)
  | _ => none

/-- C1: a USE_TOOL step whose `tool_params` hold a `source == system` schema
key is rejected without invoking the provider — `execute_instruction` returns
status `retry` (not `error`) with the message naming the offending keys and
an empty provider-invocation list — but the run does NOT terminate at that
step: the loop logs a *tool* entry for the rejected call (status `retry`) and
continues with the same agent. -/
theorem system_param_gate_retries_and_continues (env : Env) (sub : SubRunner)
    (getCfg : String → RunConfig) (userMessage : String) (step : Nat)
    (cur : String) (st : RunState) (g : Glob) (reas toolName : String)
    (toolParams : List (String × Val)) (tspec : ToolRuntimeSpec)
    (hdec : env.decide g.decideIdx =
      { action_reasoning := reas, action_details := .useTool toolName toolParams })
    (ht : toolName ∈ (getCfg cur).equipped_tools)
    (hm : dGet (getCfg cur).tools_map toolName = some tspec)
    (hf : forbiddenSystemKeys tspec.params_schema toolParams ≠ []) :
    (∀ clk : Clk, executeInstruction env
        { reasoning := reas, action := .useTool toolName toolParams }
        (some (getCfg cur)) clk
      = ({ status := .retry,
           error := some (sysParamsErrMsg
             (forbiddenSystemKeys tspec.params_schema toolParams)) }, [], clk)) ∧
    (runStep env sub getCfg userMessage step cur st g).1 = .next cur ∧
    (runStep env sub getCfg userMessage step cur st g).2.1.exec_log.entries.length
      = st.exec_log.entries.length + 2 ∧
    lastToolOf (runStep env sub getCfg userMessage step cur st g).2.1.exec_log.entries
      = some (toolName, .retry) := by
  have hexec : ∀ clk : Clk, executeInstruction env
      { reasoning := reas, action := .useTool toolName toolParams }
      (some (getCfg cur)) clk
      = ({ status := .retry,
           error := some (sysParamsErrMsg
             (forbiddenSystemKeys tspec.params_schema toolParams)) }, [], clk) :=
    fun clk => executeInstruction_forbidden env reas toolName toolParams (getCfg cur)
      tspec clk ht hm hf
  refine ⟨hexec, ?_, ?_, ?_⟩
  · unfold runStep runStepCore
    rw [hdec]
    dsimp only [decisionToInstruction]
  · unfold runStep runStepCore
    rw [hdec]
    dsimp only [decisionToInstruction, appendAgentEntry, RunState.appendEvent,
      logToolExecution]
    simp [startAgentEpoch_entries]
  · unfold runStep runStepCore
    rw [hdec]
    dsimp only [decisionToInstruction, appendAgentEntry, RunState.appendEvent,
      logToolExecution]
    rw [hexec]
    unfold lastToolOf
    rw [List.getLast?_concat]
    rfl

/-- Scenario E3 oracle: first a USE_TOOL with the system-sourced
`customer_id` supplied by the agent, then a RESPOND. -/
def decideE3 : Nat → AgentDecision := fun i =>
  if i = 0 then
    mkDec (.useTool "echo" [("message", .vstr "hi"), ("customer_id", .vstr "x")])
  else mkDec (.respond (.vstr "done"))

/-- Scenario E3 environment. -/
def envE3 : Env := { providers := testProviders, decide := decideE3 }

/-- Witness for `system_param_gate_retries_and_continues`: scenario E3's
first step. -/
theorem system_param_gate_retries_and_continues_witness :
    (∀ clk : Clk, executeInstruction envE3
        { reasoning := "r", action := .useTool "echo"
            [("message", .vstr "hi"), ("customer_id", .vstr "x")] }
        (some soloCfg) clk
      = ({ status := .retry,
           error := some "System params must not be provided by agent: [\x27customer_id\x27]" },
         [], clk)) ∧
    (runStep envE3 (subRunnerOf envE3 0) (fun _ => soloCfg) "hi" 0 "solo" {}
      { clk := clk0 }).1 = .next "solo" ∧
    (runStep envE3 (subRunnerOf envE3 0) (fun _ => soloCfg) "hi" 0 "solo" {}
      { clk := clk0 }).2.1.exec_log.entries.length = 2 ∧
    lastToolOf (runStep envE3 (subRunnerOf envE3 0) (fun _ => soloCfg) "hi" 0 "solo" {}
      { clk := clk0 }).2.1.exec_log.entries = some ("echo", .retry) :=
  system_param_gate_retries_and_continues envE3 (subRunnerOf envE3 0)
    (fun _ => soloCfg) "hi" 0 "solo" {} { clk := clk0 } "r" "echo"
    [("message", .vstr "hi"), ("customer_id", .vstr "x")] echoSpec rfl
    (by decide) rfl (by decide)

/-- C1 counterexample: the full E3 run.  Contrary to the claim, the run does
not terminate at the offending USE_TOOL step with `final.status == error`: it
continues, a *tool* entry for `echo` (status `retry`) is appended to the
execution log, and the run ends with `final.status == ok` after the next
step's RESPOND. -/
theorem system_param_gate_counterexample :
    (runLoop envE3 0 (fun _ => soloCfg) "solo" "hi" 3
      { clk := clk0 }).1.final.status = .ok ∧
    ((runLoop envE3 0 (fun _ => soloCfg) "solo" "hi" 3
        { clk := clk0 }).1.execution_log.filterMap
      (fun e => match e with
        | .tool t => some (t.tool_key, t.status)
        | _ => none))
      = [("echo", .retry)] :=
  ⟨rfl, rfl⟩

lemma stepLoop_ok_action_type (env : Env) (sub : SubRunner)
    (getCfg : String → RunConfig) (userMessage : String)
    (hresp : ∀ k, (getCfg k).allow_respond = false) :
    ∀ (fuel step : Nat) (cur : String) (st : RunState) (g : Glob),
      (stepLoop env sub getCfg userMessage fuel step cur st g).1.final.status = .ok →
      (stepLoop env sub getCfg userMessage fuel step cur st g).1.final.action_type
        = some "TASK_RESPOND" := by
  intro fuel
  induction fuel with
  | zero =>
      intro step cur st g h
      exact absurd h (fun hh => RStatus.noConfusion hh)
  | succ n ih =>
      intro step cur st g
      obtain ⟨_, _, _, _, h5⟩ := runStep_master env sub getCfg userMessage step cur st g
      simp only [stepLoop]
      rcases hrs : runStep env sub getCfg userMessage step cur st g with ⟨sres, st1, g1⟩
      rw [hrs] at h5
      dsimp only at h5 ⊢
      cases sres with
      | finish f =>
          intro hok
          rcases (h5 f rfl).2 hok with ⟨hra, _⟩ | ⟨_, hat⟩
          · rw [hresp cur] at hra
            exact Bool.noConfusion hra
          · exact hat
      | next nxt => exact ih (step + 1) nxt st1 g1


/-- C6: the delegation contract.  (1) The nested run's config provider
overrides `allow_respond := false`, `allow_task_respond := true` and injects
`system_params.delegation` holding the assignment, parent agent, group id,
task id and the remaining context overrides.  (2) One delegation attempt
reports `ok` iff the nested run returned normally with `final.status == ok`
and action type `TASK_RESPOND` (read from `final.action_type`, falling back
to `response.action_type`).  (3) A failed delegation aborts the delegating
task attempt.  (4) For nested runs of this engine, `final.status == ok`
already forces `final.action_type == TASK_RESPOND`. -/
theorem delegation_contract :
    (∀ (getCfg : String → RunConfig) (detail : DelegationDetails)
        (dk gid tid agentKey : String),
      (delegatedGetCfg getCfg detail dk gid tid agentKey).allow_respond = false ∧
      (delegatedGetCfg getCfg detail dk gid tid agentKey).allow_task_respond = true ∧
      ∃ ctx, dGet (delegatedGetCfg getCfg detail dk gid tid agentKey).system_params
          "delegation" = some (.vobj ctx) ∧
        dGet ctx "assignment" = some (.vstr detail.assignment) ∧
        dGet ctx "parent_agent" = some (.vstr dk) ∧
        dGet ctx "group_id" = some (.vstr gid) ∧
        dGet ctx "task_id" = some (.vstr tid) ∧
        ∀ k, k ≠ "assignment" → k ≠ "parent_agent" → k ≠ "group_id" → k ≠ "task_id" →
          dGet ctx k = dGet detail.context_overrides k) ∧
    (∀ (sub : SubRunner) (getCfg : String → RunConfig) (detail : DelegationDetails)
        (dk gid tid : String) (attemptIdx : Nat) (g : Glob),
      (runDelegationAttempt sub getCfg detail dk gid tid attemptIdx g).1.status = "ok" ↔
        ∃ subOut g2,
          sub (delegatedGetCfg getCfg detail dk gid tid) detail.agent_key
              detail.assignment (max detail.max_steps 1) { g with clk := g.clk.read.2 }
            = .ok (subOut, g2) ∧
          subOut.final.status = .ok ∧
          delegFinalActionType subOut.final = some "TASK_RESPOND") ∧
    (∀ (env : Env) (sub : SubRunner) (getCfg : String → RunConfig) (cfg : RunConfig)
        (agentKey : String) (stepIdx : Nat) (groupId : String)
        (tid0 : Option String) (rp : TaskRetryPolicy) (detail : DelegationDetails)
        (taskId : String) (attemptIdx : Nat) (st : RunState) (g : Glob),
      (runOneAttempt env sub getCfg cfg agentKey stepIdx groupId
          (.delegate tid0 rp [detail]) taskId attemptIdx st g).2.1 = true ↔
        (runDelegationAttempt sub getCfg detail agentKey groupId taskId attemptIdx
          { g with clk := g.clk.read.2.read.2 }).1.status = "ok") ∧
    (∀ (env : Env) (d : Nat) (getCfg : String → RunConfig)
        (detail : DelegationDetails) (dk gid tid msg : String) (ms : Nat) (g : Glob),
      (runLoopBody env (subRunnerOf env d) (delegatedGetCfg getCfg detail dk gid tid)
          detail.agent_key msg ms g).1.final.status = .ok →
      (runLoopBody env (subRunnerOf env d) (delegatedGetCfg getCfg detail dk gid tid)
          detail.agent_key msg ms g).1.final.action_type = some "TASK_RESPOND") := by
  refine ⟨?_, ?_, ?_, ?_⟩
  · intro getCfg detail dk gid tid agentKey
    refine ⟨rfl, rfl, _, dGet_dSet_self _ _ _, ?_, ?_, ?_, dGet_dSet_self _ _ _, ?_⟩
    · rw [dGet_dSet_ne _ _ _ _ (by decide), dGet_dSet_ne _ _ _ _ (by decide),
        dGet_dSet_ne _ _ _ _ (by decide), dGet_dSet_self]
    · rw [dGet_dSet_ne _ _ _ _ (by decide), dGet_dSet_ne _ _ _ _ (by decide),
        dGet_dSet_self]
    · rw [dGet_dSet_ne _ _ _ _ (by decide), dGet_dSet_self]
    · intro k h1 h2 h3 h4
      rw [dGet_dSet_ne _ _ _ _ h4, dGet_dSet_ne _ _ _ _ h3, dGet_dSet_ne _ _ _ _ h2,
        dGet_dSet_ne _ _ _ _ h1]
  · intro sub getCfg detail dk gid tid attemptIdx g
    unfold runDelegationAttempt
    dsimp only
    rcases hsub : sub (delegatedGetCfg getCfg detail dk gid tid) detail.agent_key
        detail.assignment (max detail.max_steps 1) { g with clk := g.clk.read.2 }
      with msg | ⟨subOut, g2⟩
    · dsimp only
      constructor
      · intro h
        exact absurd h (by decide)
      · rintro ⟨so, gx, hs, -, -⟩
        exact Except.noConfusion hs
    · dsimp only
      split
      · rename_i hcond
        constructor
        · intro h
          exact absurd h (by decide)
        · rintro ⟨so, gx, hs, hok, hat⟩
          injection hs with hp
          rw [Prod.mk.injEq] at hp
          obtain ⟨hso, -⟩ := hp
          rw [← hso] at hok hat
          rcases Bool.or_eq_true_iff.mp hcond with hc | hc
          · exact absurd hok (of_decide_eq_true hc)
          · exact absurd hat (of_decide_eq_true hc)
      · rename_i hcond
        have hcond2 : (decide (subOut.final.status ≠ RStatus.ok)
            || decide (delegFinalActionType subOut.final ≠ some "TASK_RESPOND")) = false := by
          revert hcond
          cases decide (subOut.final.status ≠ RStatus.ok)
              || decide (delegFinalActionType subOut.final ≠ some "TASK_RESPOND") <;> simp
        obtain ⟨hc1, hc2⟩ := Bool.or_eq_false_iff.mp hcond2
        constructor
        · intro _
          exact ⟨subOut, g2, rfl, not_not.mp (of_decide_eq_false hc1),
            not_not.mp (of_decide_eq_false hc2)⟩
        · intro _
          rfl
  · intro env sub getCfg cfg agentKey stepIdx groupId tid0 rp detail taskId attemptIdx st g
    unfold runOneAttempt
    dsimp only
    simp only [runDelegDetails]
    rcases hra : runDelegationAttempt sub getCfg detail agentKey groupId taskId
        attemptIdx { g with clk := g.clk.read.2.read.2 } with ⟨oc, gx⟩
    dsimp only
    by_cases hok : oc.status = "ok"
    · rw [if_neg (not_not_intro hok)]
      simp only [runDelegDetails]
      simp [hok]
    · rw [if_pos hok]
      simp [hok]
  · intro env d getCfg detail dk gid tid msg ms g
    unfold runLoopBody
    dsimp only
    exact stepLoop_ok_action_type env (subRunnerOf env d)
      (delegatedGetCfg getCfg detail dk gid tid) msg (fun k => rfl) ms 0
      detail.agent_key {} _

lemma collectFullFor_eq (store : List (String × ToolRec)) (agentKey : String)
    (epoch : Nat) :
    ∀ entries : List LogEntry,
      collectFullFor store entries agentKey epoch
        = entries.filterMap (fun e =>
            match e with
            | .tool t =>
                if t.agent_key = agentKey ∧ t.epoch = epoch then
                  (dGet store t.execution_id).map (fun tr => (t.execution_id, tr))
                else none
            | _ => none) := by
  intro entries
  induction entries with
  | nil => rfl
  | cons e rest ih =>
      cases e with
      | tool t =>
          simp only [collectFullFor, List.filterMap_cons]
          by_cases hc : t.agent_key = agentKey ∧ t.epoch = epoch
          · rw [if_pos hc, if_pos hc]
            cases hd : dGet store t.execution_id with
            | none => simpa using ih
            | some tr => simp [ih]
          · rw [if_neg hc, if_neg hc]
            simpa using ih
      | agent a => simpa [collectFullFor] using ih
      | task_group tg => simpa [collectFullFor] using ih
      | system s => simpa [collectFullFor] using ih

lemma collectFullFor_mem (store : List (String × ToolRec)) (entries : List LogEntry)
    (agentKey : String) (epoch : Nat) (x : String) (r : ToolRec) :
    (x, r) ∈ collectFullFor store entries agentKey epoch ↔
      dGet store x = some r ∧ ∃ t : ToolEntryData, LogEntry.tool t ∈ entries ∧
        t.execution_id = x ∧ t.agent_key = agentKey ∧ t.epoch = epoch := by
  rw [collectFullFor_eq, List.mem_filterMap]
  constructor
  · rintro ⟨e, he, hf⟩
    cases e with
    | tool t =>
        dsimp only at hf
        by_cases hc : t.agent_key = agentKey ∧ t.epoch = epoch
        · rw [if_pos hc] at hf
          cases hd : dGet store t.execution_id with
          | none => rw [hd] at hf; exact Option.noConfusion hf
          | some tr =>
              rw [hd] at hf
              injection hf with hf
              rw [Prod.mk.injEq] at hf
              obtain ⟨hx, hr⟩ := hf
              subst hx
              subst hr
              exact ⟨hd, t, he, rfl, hc.1, hc.2⟩
        · rw [if_neg hc] at hf
          exact Option.noConfusion hf
    | agent a => exact Option.noConfusion hf
    | task_group tg => exact Option.noConfusion hf
    | system s => exact Option.noConfusion hf
  · rintro ⟨hd, t, ht, hx, ha, he⟩
    refine ⟨LogEntry.tool t, ht, ?_⟩
    dsimp only
    rw [if_pos ⟨ha, he⟩, hx, hd]
    rfl

/-- The agent entries of a log, in order. -/
def agentEntriesOf (entries : List LogEntry) : List AgentEntryData :=
  entries.filterMap (fun e =>
    match e with
    | .agent a => some a
    | _ => none)

lemma agentEntriesOf_append (l1 l2 : List LogEntry) :
    agentEntriesOf (l1 ++ l2) = agentEntriesOf l1 ++ agentEntriesOf l2 :=
  List.filterMap_append l1 l2 _

lemma agentEntriesOf_children_nil {cur : String} {stepN epochN : Nat}
    {l : List LogEntry} (h : ∀ e ∈ l, ChildEntry cur stepN epochN e) :
    agentEntriesOf l = [] := by
  induction l with
  | nil => rfl
  | cons e rest ih =>
      obtain ⟨t, he, -⟩ := h e (List.mem_cons_self e rest)
      subst he
      simp only [agentEntriesOf, List.filterMap_cons]
      exact ih (fun e2 h2 => h (by exact e2) (List.mem_cons_of_mem _ h2))

lemma runStepCore_agent_entry (env : Env) (sub : SubRunner)
    (getCfg : String → RunConfig) (userMessage : String) (step : Nat)
    (cur : String) (cfg : RunConfig) (decision : AgentDecision)
    (fullOutputs : List (String × ToolRec))
    (stepStarted actionStarted actionPerf : Nat) (st1 : RunState) (g2 : Glob) :
    agentEntriesOf (runStepCore env sub getCfg userMessage step cur cfg decision
        fullOutputs stepStarted actionStarted actionPerf st1 g2).2.1.exec_log.entries
      = agentEntriesOf st1.exec_log.entries ++
        [{ step := step, epoch := st1.exec_log.current_epoch, agent_key := cur,
           input_preview := pyTruncate userMessage 80, decision := decision,
           prompt_tool_output_ids := fullOutputs.map Prod.fst,
           route_context :=
             match decision.action_details with
             | .routeToAgent _ ctx => if ctx.isEmpty then none else some ctx
             | _ => none }] := by
  obtain ⟨reas, details⟩ := decision
  cases details with
  | respond payload =>
      unfold runStepCore
      dsimp only [decisionToInstruction, appendAgentEntry, RunState.appendEvent]
      rw [agentEntriesOf_append]
      rfl
  | taskRespond payload =>
      unfold runStepCore
      dsimp only [decisionToInstruction, appendAgentEntry, RunState.appendEvent]
      rw [agentEntriesOf_append]
      rfl
  | routeToAgent target ctx =>
      unfold runStepCore
      dsimp only [decisionToInstruction, appendAgentEntry, RunState.appendEvent]
      rw [agentEntriesOf_append]
      rfl
  | useTool toolName toolParams =>
      unfold runStepCore
      dsimp only [decisionToInstruction, appendAgentEntry, RunState.appendEvent,
        logToolExecution]
      rw [agentEntriesOf_append, agentEntriesOf_append]
      simp [agentEntriesOf]
  | taskGroup gid tasks =>
      unfold runStepCore
      dsimp only [decisionToInstruction]
      have hsd := handleTaskGroup_schedDelta env sub getCfg gid tasks cfg cur step st1 g2
      rcases hH : handleTaskGroup env sub getCfg gid tasks cfg cur step st1 g2
        with ⟨oc, stx, gx⟩
      rw [hH] at hsd
      dsimp only at hsd
      obtain ⟨⟨newE, hE, hC⟩, hep, -, -, -, -⟩ := hsd
      dsimp only
      split
      all_goals
        dsimp only [appendAgentEntry, RunState.appendEvent]
        rw [hE, agentEntriesOf_append, agentEntriesOf_append, agentEntriesOf_append,
          agentEntriesOf_children_nil hC, hep]
        simp [agentEntriesOf]

lemma chainStepB_true {p q : String × Nat} (h : chainStepB p q = true) :
    (p.1 = q.1 ∧ q.2 = p.2) ∨ (p.1 ≠ q.1 ∧ q.2 = p.2 + 1) := by
  unfold chainStepB at h
  by_cases hk : p.1 = q.1
  · rw [if_pos hk] at h
    exact Or.inl ⟨hk, by simpa using h⟩
  · rw [if_neg hk] at h
    exact Or.inr ⟨hk, by simpa using h⟩

lemma chainFrom_le : ∀ (l : List (String × Nat)) (p : String × Nat),
    chainFrom p l = true → ∀ q ∈ l, p.2 ≤ q.2 := by
  intro l
  induction l with
  | nil => intro p _ q hq; exact absurd hq (List.not_mem_nil q)
  | cons r rest ih =>
      intro p h q hq
      simp only [chainFrom, Bool.and_eq_true] at h
      obtain ⟨h1, h2⟩ := h
      have hpr : p.2 ≤ r.2 := by
        rcases chainStepB_true h1 with ⟨-, he⟩ | ⟨-, he⟩ <;> omega
      rcases List.mem_cons.mp hq with hq | hq
      · subst hq; exact hpr
      · exact le_trans hpr (ih r h2 q hq)

lemma chainFrom_suffix : ∀ (l : List (String × Nat)) (p q : String × Nat)
    (rest : List (String × Nat)),
    chainFrom p (l ++ q :: rest) = true → chainFrom q rest = true := by
  intro l
  induction l with
  | nil =>
      intro p q rest h
      simp only [List.nil_append, chainFrom, Bool.and_eq_true] at h
      exact h.2
  | cons r rl ih =>
      intro p q rest h
      rw [List.cons_append] at h
      simp only [chainFrom, Bool.and_eq_true] at h
      exact ih r q rest h.2

lemma chainGood_extract {l1 : List (String × Nat)} {p : String × Nat}
    {rest : List (String × Nat)}
    (h : chainGood (l1 ++ p :: rest) = true) : chainFrom p rest = true := by
  cases l1 with
  | nil =>
      simp only [List.nil_append, chainGood, Bool.and_eq_true] at h
      exact h.2
  | cons x xs =>
      simp only [List.cons_append, chainGood, Bool.and_eq_true] at h
      exact chainFrom_suffix xs x p rest h.2

lemma chainFrom_reentry {a : String} {e2 : Nat} {l2 : List (String × Nat)} :
    ∀ (mid : List (String × Nat)) (p : String × Nat),
      chainFrom p (mid ++ (a, e2) :: l2) = true → p.1 = a →
      (∃ q ∈ mid, q.1 ≠ a) → p.2 < e2 := by
  intro mid
  induction mid with
  | nil =>
      rintro p h hpa ⟨q, hq, -⟩
      exact absurd hq (List.not_mem_nil q)
  | cons r rest ih =>
      rintro p h hpa ⟨q, hq, hqa⟩
      rw [List.cons_append] at h
      simp only [chainFrom, Bool.and_eq_true] at h
      obtain ⟨h1, h2⟩ := h
      by_cases hra : r.1 = a
      · have hr2 : r.2 = p.2 := by
          rcases chainStepB_true h1 with ⟨-, he⟩ | ⟨hne, -⟩
          · exact he
          · exact absurd (hpa.trans hra.symm) hne
        rcases List.mem_cons.mp hq with hq2 | hq2
        · subst hq2; exact absurd hra hqa
        · have hlt := ih r h2 hra ⟨q, hq2, hqa⟩
          omega
      · have hr2 : r.2 = p.2 + 1 := by
          rcases chainStepB_true h1 with ⟨hk, -⟩ | ⟨-, he⟩
          · exact absurd (hk.symm.trans hpa) hra
          · exact he
        have hle : r.2 ≤ e2 :=
          chainFrom_le _ r h2 (a, e2)
            (List.mem_append.mpr (Or.inr (List.mem_cons_self _ _)))
        omega

/-- C4: `collect_full_for` returns exactly the tool executions whose log
entries carry the given `(agent_key, epoch)`, in insertion order, each with
its full stored payload (the filterMap characterization and the membership
characterization).  Every step's agent entry records as its prompt's tool
outputs precisely the collection for the agent's current epoch over the log
so far — so outputs of the current epoch are visible on the agent's next step
in that epoch; and whenever an agent re-enters after a different agent ran in
between, its epoch is strictly larger, so entries tagged with the old epoch
are no longer collected. -/
theorem tool_output_collection_and_visibility :
    (∀ (store : List (String × ToolRec)) (entries : List LogEntry)
        (agentKey : String) (epoch : Nat),
      collectFullFor store entries agentKey epoch
        = entries.filterMap (fun e =>
            match e with
            | .tool t =>
                if t.agent_key = agentKey ∧ t.epoch = epoch then
                  (dGet store t.execution_id).map (fun tr => (t.execution_id, tr))
                else none
            | _ => none)) ∧
    (∀ (store : List (String × ToolRec)) (entries : List LogEntry)
        (agentKey : String) (epoch : Nat) (x : String) (r : ToolRec),
      (x, r) ∈ collectFullFor store entries agentKey epoch ↔
        dGet store x = some r ∧ ∃ t : ToolEntryData, LogEntry.tool t ∈ entries ∧
          t.execution_id = x ∧ t.agent_key = agentKey ∧ t.epoch = epoch) ∧
    (∀ (env : Env) (sub : SubRunner) (getCfg : String → RunConfig)
        (userMessage : String) (step : Nat) (cur : String) (st : RunState)
        (g : Glob),
      ∃ a : AgentEntryData,
        agentEntriesOf (runStep env sub getCfg userMessage step cur
            st g).2.1.exec_log.entries
          = agentEntriesOf st.exec_log.entries ++ [a] ∧
        a.agent_key = cur ∧ a.epoch = epochAfter st.exec_log cur ∧
        a.prompt_tool_output_ids
          = (collectFullFor st.tool_store st.exec_log.entries cur
              (epochAfter st.exec_log cur)).map Prod.fst) ∧
    (∀ (l1 mid l2 : List (String × Nat)) (a b : String) (e1 e2 eb : Nat),
      chainGood (l1 ++ (a, e1) :: (mid ++ (a, e2) :: l2)) = true →
      (b, eb) ∈ mid → b ≠ a → e1 < e2) := by
  refine ⟨?_, ?_, ?_, ?_⟩
  · intro store entries agentKey epoch
    exact collectFullFor_eq store agentKey epoch entries
  · intro store entries agentKey epoch x r
    exact collectFullFor_mem store entries agentKey epoch x r
  · intro env sub getCfg userMessage step cur st g
    unfold runStep
    dsimp only
    refine ⟨_, runStepCore_agent_entry env sub getCfg userMessage step cur (getCfg cur)
      _ _ _ _ _ _ _, rfl, rfl, ?_⟩
    show (collectFullFor st.tool_store st.exec_log.entries cur
        ((st.exec_log.startAgentEpoch cur).currentEpochFor cur)).map Prod.fst
      = (collectFullFor st.tool_store st.exec_log.entries cur
        (epochAfter st.exec_log cur)).map Prod.fst
    rw [currentEpochFor_startAgentEpoch]
  · intro l1 mid l2 a b e1 e2 eb h hm hne
    exact chainFrom_reentry mid (a, e1) (chainGood_extract h) rfl ⟨(b, eb), hm, hne⟩

end Arion
